import Mathlib

/-!
Shallow embedding of the BYOM (Bring Your Own Machine) provider's
distributed IP-pool allocator, translated from
`src/cloud-providers/byom/configmap_vmpool.go`,
`src/cloud-providers/byom/state_recovery.go` and
`src/cloud-providers/byom/provider.go`.

Modelling conventions:
* IP addresses are modelled as the strings the Go code stores; the Go
  standard library's `netip.ParseAddr` is abstracted as a boolean
  validity test `validIP` carried in the environment (success of the
  parse is all the byom code ever uses).
* The MD5 digest (`crypto/md5`) is abstracted as a function
  `md5 : String → List Nat` returning the digest bytes.
* The Kubernetes ConfigMap store is a single optional object holding the
  parsed `IPAllocationState` and an opaque `resourceVersion` string; the
  API server's freshly assigned revision for the next write is the
  environment's `freshRev`.  Transport errors and JSON corruption are
  out of the model; the only store error is the optimistic-concurrency
  conflict, exactly as checked by `updateState` in the source.
* `metav1.Time` values are opaque `Nat` timestamps (`now` in the
  environment); the Go `int64` version counter is an `Int` whose
  increment wraps at the `int64` boundary (`wrapInt64`), as the
  source's `state.Version + 1` does.
* Go maps (`map[string]IPAllocation`) are association lists; map
  iteration order, which Go leaves unspecified, is the list order.
-/

namespace Byom

/-- One allocation row, `IPAllocation` in the source. -/
structure IPAllocation where
  AllocationID : String
  IP : String
  NodeName : String
  PodName : String
  PodNamespace : String
  AllocatedAt : Nat
deriving DecidableEq, Repr

/-- The shared allocation state, `IPAllocationState` in the source.
`AllocatedIPs` is the Go map from allocation ID to allocation row,
represented as an association list. -/
structure IPAllocationState where
  AllocatedIPs : List (String × IPAllocation)
  AvailableIPs : List String
  LastUpdated : Nat
  Version : Int
deriving DecidableEq, Repr

/-- Pool configuration, `GlobalVMPoolConfig` in the source (tuning
fields that the modelled logic never reads are omitted). -/
structure GlobalVMPoolConfig where
  Namespace : String
  ConfigMapName : String
  PoolIPs : List String
deriving DecidableEq, Repr

/-- The stored ConfigMap: the parsed state under the data key
`allocation-state` (if present) and the server's resource version. -/
structure CMap where
  stateData : Option IPAllocationState
  resourceVersion : String
deriving DecidableEq, Repr

/-- The store: `none` when the ConfigMap does not exist. -/
abbrev KStore := Option CMap

/-- Ambient facts of one operation: the abstracted MD5 digest, the
abstracted address-syntax test, the resolved node name (`none` when
`getCurrentNodeName` fails), the current time, and the resource version
the API server will assign to the next successful write. -/
structure Env where
  md5 : String → List Nat
  validIP : String → Bool
  nodeName : Option String
  now : Nat
  freshRev : String

/-- Error kinds of the pool manager, mirroring the sentinel errors of
the source (`ErrNoAvailableIPs` is the pool-exhausted failure).  The two
`RetryExhausted` constructors model the `fmt.Errorf("%w: %w", ...)`
wrapping done by `AllocateIP` / `DeallocateIP` around the error returned
from the retry loop. -/
inductive PoolErr where
  | retrievingPoolState
  | invalidAllocatedIP
  | noAvailableIPs
  | nodeNameDetection
  | conflict
  | updatingPoolState
  | allocationRetryExhausted (cause : PoolErr)
  | deallocationRetryExhausted (cause : PoolErr)
deriving DecidableEq, Repr

/-- The only store-level error in the model: the optimistic-concurrency
conflict raised by `updateState`. -/
inductive StoreErr where
  | conflict
deriving DecidableEq, Repr

instance {ε α : Type} [DecidableEq ε] [DecidableEq α] : DecidableEq (Except ε α) :=
  fun a b =>
    match a, b with
    | Except.ok x, Except.ok y =>
      if h : x = y then isTrue (by rw [h])
      else isFalse (fun hc => h (Except.ok.inj hc))
    | Except.error x, Except.error y =>
      if h : x = y then isTrue (by rw [h])
      else isFalse (fun hc => h (Except.error.inj hc))
    | Except.ok _, Except.error _ => isFalse (fun hc => Except.noConfusion hc)
    | Except.error _, Except.ok _ => isFalse (fun hc => Except.noConfusion hc)

/-- Lookup in the Go map `state.AllocatedIPs` (`state.AllocatedIPs[id]`). -/
def lookupAlloc (m : List (String × IPAllocation)) (allocationID : String) :
    Option IPAllocation :=
  match m with
  | [] => none
  | (id, a) :: rest => if id = allocationID then some a else lookupAlloc rest allocationID

/-- Go map assignment `m[id] = a`.  Every call site in the byom code
inserts a key it has just checked to be absent, so a plain cons is the
faithful association-list image of the assignment. -/
def mapInsert (m : List (String × IPAllocation)) (allocationID : String)
    (a : IPAllocation) : List (String × IPAllocation) :=
  (allocationID, a) :: m

/-- Go map deletion `delete(m, id)`. -/
def mapDelete (m : List (String × IPAllocation)) (allocationID : String) :
    List (String × IPAllocation) :=
  m.filter (fun p => p.1 ≠ allocationID)

/-- The IPs held by the allocation rows of a map. -/
def allocIPs (m : List (String × IPAllocation)) : List String :=
  m.map (fun p => p.2.IP)

/-- The `reflect.DeepEqual` test on two allocation maps: same size and
every entry of the first is bound identically in the second. -/
def mapDeepEqual (m1 m2 : List (String × IPAllocation)) : Bool :=
  decide (m1.length = m2.length) &&
    m1.all (fun p => decide (lookupAlloc m2 p.1 = some p.2))

/-- The empty state created when the ConfigMap is absent:
`initializeEmptyState` in the source (all configured IPs available,
version 1). -/
def initializeEmptyState (cfg : GlobalVMPoolConfig) (env : Env) : IPAllocationState :=
  { AllocatedIPs := []
    AvailableIPs := cfg.PoolIPs
    LastUpdated := env.now
    Version := 1 }

/-- Read of the current state, `getCurrentState` in the source: a
missing ConfigMap or a missing data key yields the freshly initialized
empty state and an empty resource version. -/
def getCurrentState (cfg : GlobalVMPoolConfig) (env : Env) (store : KStore) :
    IPAllocationState × String :=
  match store with
  | none => (initializeEmptyState cfg env, "")
  | some configMap =>
    match configMap.stateData with
    | none => (initializeEmptyState cfg env, "")
    | some state => (state, configMap.resourceVersion)

/-- Write of the state, `updateState` in the source: create the
ConfigMap when absent; otherwise fail with `Conflict` exactly when a
non-empty expected resource version disagrees with the stored one, and
overwrite otherwise. -/
def updateState (env : Env) (store : KStore) (state : IPAllocationState)
    (expectedResourceVersion : String) : Except StoreErr KStore :=
  match store with
  | none =>
    Except.ok (some { stateData := some state, resourceVersion := env.freshRev })
  | some configMap =>
    if expectedResourceVersion ≠ "" ∧ configMap.resourceVersion ≠ expectedResourceVersion then
      Except.error StoreErr.conflict
    else
      Except.ok (some { stateData := some state, resourceVersion := env.freshRev })

/-- Two's-complement wraparound of Go `int64` arithmetic: the source's
`state.Version + 1` is an `int64` addition, which wraps at
`9223372036854775807` (2^63 - 1). -/
def wrapInt64 (x : Int) : Int :=
  (x + 9223372036854775808) % 18446744073709551616 - 9223372036854775808

/-- Big-endian read of the first four digest bytes as an unsigned 32-bit
integer, `binary.BigEndian.Uint32(hash[:4])` in the source. -/
def bigEndianUint32 (bs : List Nat) : Nat :=
  (bs.getD 0 0 % 256) * 2 ^ 24 + (bs.getD 1 0 % 256) * 2 ^ 16 +
    (bs.getD 2 0 % 256) * 2 ^ 8 + bs.getD 3 0 % 256

/-- Hash-based index selection, `selectIPIndex` in the source.  The Go
`int(seed) % len(availableIPs)` is a non-negative remainder because
`seed` is a `uint32` widened to a 64-bit `int`. -/
def selectIPIndex (env : Env) (availableIPs : List String) (allocationID : String) : Nat :=
  if availableIPs.length ≤ 1 then 0
  else bigEndianUint32 (env.md5 allocationID) % availableIPs.length

/-- Node-identity sources: the `NODE_NAME` environment variable
(`os.Getenv` returns the empty string when unset) and the contents of
the downward-API file and the hostname file (`none` when the read
fails). -/
structure NodeEnv where
  envNodeName : String
  nodeNameFileData : Option String
  hostnameFileData : Option String
deriving DecidableEq, Repr

/-- Go's `unicode.IsSpace`: the Unicode White_Space property
(tab, LF, VT, FF, CR, space, NEL, NBSP, ogham space mark, the en-quad
to hair-space range, the line and paragraph separators, narrow
no-break space, medium mathematical space, ideographic space). -/
def goIsSpace (c : Char) : Bool :=
  decide (c.toNat = 9 ∨ c.toNat = 10 ∨ c.toNat = 11 ∨ c.toNat = 12 ∨
    c.toNat = 13 ∨ c.toNat = 32 ∨ c.toNat = 133 ∨ c.toNat = 160 ∨
    c.toNat = 5760 ∨ (8192 ≤ c.toNat ∧ c.toNat ≤ 8202) ∨ c.toNat = 8232 ∨
    c.toNat = 8233 ∨ c.toNat = 8239 ∨ c.toNat = 8287 ∨ c.toNat = 12288)

/-- The whitespace trim applied to every candidate node name: an
executable model of Go's `strings.TrimSpace` (drop leading and trailing
`unicode.IsSpace` characters). -/
def trimString (s : String) : String :=
  String.mk (((s.data.dropWhile goIsSpace).reverse.dropWhile
    goIsSpace).reverse)

/-- Strategy 3 of `getCurrentNodeName`: the hostname file, accepted when
its trimmed contents are non-empty. -/
def nodeNameFromHostnameFile (e : NodeEnv) : Except Unit String :=
  match e.hostnameFileData with
  | some data =>
    if trimString data ≠ "" then Except.ok (trimString data) else Except.error ()
  | none => Except.error ()

/-- The node-identity resolver, `getCurrentNodeName` in the source: the
environment variable wins whenever its *raw* value is non-empty (the
emptiness test precedes the trim), then the downward-API file, then the
hostname file, each accepted only when non-empty after trimming. -/
def getCurrentNodeName (e : NodeEnv) : Except Unit String :=
  if e.envNodeName ≠ "" then Except.ok (trimString e.envNodeName)
  else
    match e.nodeNameFileData with
    | some data =>
      if trimString data ≠ "" then Except.ok (trimString data) else nodeNameFromHostnameFile e
    | none => nodeNameFromHostnameFile e

/-- One body run of the allocation, `doAllocateIP` in the source:
read state and resource version, return the existing allocation's IP if
the ID is already bound (after re-parsing it), fail with
`noAvailableIPs` when the pool is empty, otherwise select an index by
hash, move the selected IP from `AvailableIPs` into a new allocation
row, bump the version and write with the read resource version.  The
final parse of the selected IP happens after the write, as in the
source. -/
def doAllocateIP (cfg : GlobalVMPoolConfig) (env : Env) (store : KStore)
    (allocationID podName podNamespace : String) : KStore × Except PoolErr String :=
  let state := (getCurrentState cfg env store).1
  let resourceVersion := (getCurrentState cfg env store).2
  match lookupAlloc state.AllocatedIPs allocationID with
  | some allocation =>
    if env.validIP allocation.IP then (store, Except.ok allocation.IP)
    else (store, Except.error PoolErr.invalidAllocatedIP)
  | none =>
    if state.AvailableIPs.length = 0 then (store, Except.error PoolErr.noAvailableIPs)
    else
      let selectedIndex := selectIPIndex env state.AvailableIPs allocationID
      let ipStr := state.AvailableIPs.getD selectedIndex ""
      match env.nodeName with
      | none => (store, Except.error PoolErr.nodeNameDetection)
      | some nodeName =>
        let newState : IPAllocationState :=
          { AllocatedIPs := mapInsert state.AllocatedIPs allocationID
              { AllocationID := allocationID, IP := ipStr, NodeName := nodeName
                PodName := podName, PodNamespace := podNamespace, AllocatedAt := env.now }
            AvailableIPs :=
              state.AvailableIPs.take selectedIndex ++
                state.AvailableIPs.drop (selectedIndex + 1)
            LastUpdated := env.now
            Version := wrapInt64 (state.Version + 1) }
        match updateState env store newState resourceVersion with
        | Except.error StoreErr.conflict => (store, Except.error PoolErr.conflict)
        | Except.ok store2 =>
          if env.validIP ipStr then (store2, Except.ok ipStr)
          else (store2, Except.error PoolErr.invalidAllocatedIP)

/-- One body run of the deallocation, `doDeallocateIP` in the source:
unknown IDs are a successful no-op; otherwise the allocation's IP is
appended to `AvailableIPs`, the row deleted, the version bumped and the
state written with the read resource version. -/
def doDeallocateIP (cfg : GlobalVMPoolConfig) (env : Env) (store : KStore)
    (allocationID : String) : KStore × Except PoolErr Unit :=
  let state := (getCurrentState cfg env store).1
  let resourceVersion := (getCurrentState cfg env store).2
  match lookupAlloc state.AllocatedIPs allocationID with
  | none => (store, Except.ok ())
  | some allocation =>
    let newState : IPAllocationState :=
      { AllocatedIPs := mapDelete state.AllocatedIPs allocationID
        AvailableIPs := state.AvailableIPs ++ [allocation.IP]
        LastUpdated := env.now
        Version := wrapInt64 (state.Version + 1) }
    match updateState env store newState resourceVersion with
    | Except.error StoreErr.conflict => (store, Except.error PoolErr.conflict)
    | Except.ok store2 => (store2, Except.ok ())

/-- The client-go `retry.RetryOnConflict` combinator: run the body, and
re-run it only when it failed with a conflict and attempts remain; the
last error is returned when the attempts are exhausted. -/
def retryOnConflict {α : Type} (steps : Nat)
    (body : KStore → KStore × Except PoolErr α) (store : KStore) :
    KStore × Except PoolErr α :=
  match steps with
  | 0 => (store, Except.error PoolErr.conflict)
  | n + 1 =>
    match body store with
    | (store2, Except.ok a) => (store2, Except.ok a)
    | (store2, Except.error e) =>
      if e = PoolErr.conflict ∧ 0 < n then retryOnConflict n body store2
      else (store2, Except.error e)

/-- Public allocation, `AllocateIP` in the source: the body under
`RetryOnConflict`, with any error of the loop wrapped in
`ErrAllocationRetryExhausted`. -/
def AllocateIP (cfg : GlobalVMPoolConfig) (env : Env) (steps : Nat) (store : KStore)
    (allocationID podName podNamespace : String) : KStore × Except PoolErr String :=
  match retryOnConflict steps
      (fun s => doAllocateIP cfg env s allocationID podName podNamespace) store with
  | (store2, Except.ok ip) => (store2, Except.ok ip)
  | (store2, Except.error e) =>
    (store2, Except.error (PoolErr.allocationRetryExhausted e))

/-- Public deallocation, `DeallocateIP` in the source. -/
def DeallocateIP (cfg : GlobalVMPoolConfig) (env : Env) (steps : Nat) (store : KStore)
    (allocationID : String) : KStore × Except PoolErr Unit :=
  match retryOnConflict steps (fun s => doDeallocateIP cfg env s allocationID) store with
  | (store2, Except.ok _) => (store2, Except.ok ())
  | (store2, Except.error e) =>
    (store2, Except.error (PoolErr.deallocationRetryExhausted e))

/-- Deallocation by IP, `DeallocateByIP` in the source: list the
allocations, find one holding the IP, succeed as a no-op when there is
none, and otherwise deallocate by the found ID. -/
def DeallocateByIP (cfg : GlobalVMPoolConfig) (env : Env) (steps : Nat) (store : KStore)
    (ip : String) : KStore × Except PoolErr Unit :=
  let state := (getCurrentState cfg env store).1
  match state.AllocatedIPs.find? (fun p => p.2.IP = ip) with
  | none => (store, Except.ok ())
  | some p => DeallocateIP cfg env steps store p.1

/-- The instance record returned by `CreateInstance`. -/
structure Instance where
  ID : String
  Name : String
  IPs : List String
deriving DecidableEq, Repr

/-- Errors surfaced by `CreateInstance`. -/
inductive CreateInstanceErr where
  | allocFailed (cause : PoolErr)
  | generateFailed
  | sendFailed
deriving DecidableEq, Repr

/-- The provider facade's `CreateInstance`: build the allocation ID as
`podName-sandboxID`, split a leading `namespace/`, allocate an IP, then
generate the cloud-config and push it to the VM; on either failure,
deallocate the allocation ID before surfacing the error.
`generate` models `cloudConfig.Generate()` and `send userData ip`
models the success of `sendConfigFile`. -/
def CreateInstance (cfg : GlobalVMPoolConfig) (env : Env) (steps : Nat)
    (generate : Except Unit String) (send : String → String → Bool)
    (store : KStore) (podName sandboxID : String) :
    KStore × Except CreateInstanceErr Instance :=
  let allocationID := podName ++ "-" ++ sandboxID
  let pair :=
    match podName.splitOn "/" with
    | [ns, name] => (ns, name)
    | _ => ("default", podName)
  match AllocateIP cfg env steps store allocationID pair.2 pair.1 with
  | (store1, Except.error e) => (store1, Except.error (CreateInstanceErr.allocFailed e))
  | (store1, Except.ok ip) =>
    match generate with
    | Except.error _ =>
      ((DeallocateIP cfg env steps store1 allocationID).1,
        Except.error CreateInstanceErr.generateFailed)
    | Except.ok userData =>
      if send userData ip then
        (store1, Except.ok { ID := ip, Name := "byom-" ++ ip, IPs := [ip] })
      else
        ((DeallocateIP cfg env steps store1 allocationID).1,
          Except.error CreateInstanceErr.sendFailed)

/-- Whether the recovery-time cleanup of one node-local IP string is
recorded as failed: the callback is invoked only for IP strings that
parse, its error is recorded, and a missing record (no callback, or an
unparseable IP) reads as success — mirroring `vmCleanupResults` in
`releaseNodeAllocations`. -/
def cleanupFailed (env : Env) (cleanup : Option (String → Option Unit))
    (ipStr : String) : Bool :=
  match cleanup with
  | none => false
  | some f => if env.validIP ipStr then (f ipStr).isSome else false

/-- Recovery's `releaseNodeAllocations` (`state_recovery.go`): collect
the local node's allocations, invoke the cleanup callback for each of
their parseable IPs, then release exactly the IPs without a recorded
cleanup failure (appending them to `AvailableIPs`), keep the failed ones
allocated, bump the version and write with the given resource version.
A node with no allocations is a successful no-op. -/
def releaseNodeAllocations (env : Env) (cleanup : Option (String → Option Unit))
    (store : KStore) (state : IPAllocationState) (nodeName : String)
    (resourceVersion : String) : KStore × Except StoreErr Unit :=
  let nodeAllocations :=
    allocIPs (state.AllocatedIPs.filter (fun p => p.2.NodeName = nodeName))
  if nodeAllocations.length = 0 then (store, Except.ok ())
  else
    let successfullyCleanedIPs :=
      nodeAllocations.filter (fun ipStr => ¬ cleanupFailed env cleanup ipStr = true)
    let newState : IPAllocationState :=
      { AllocatedIPs :=
          state.AllocatedIPs.filter (fun p => ¬ p.2.NodeName = nodeName) ++
            (state.AllocatedIPs.filter (fun p => p.2.NodeName = nodeName)).filter
              (fun p => cleanupFailed env cleanup p.2.IP)
        AvailableIPs := state.AvailableIPs ++ successfullyCleanedIPs
        LastUpdated := env.now
        Version := wrapInt64 (state.Version + 1) }
    match updateState env store newState resourceVersion with
    | Except.error StoreErr.conflict => (store, Except.error StoreErr.conflict)
    | Except.ok store2 => (store2, Except.ok ())

/-- The repair loop of `validateAndRepairState` (provider.go): walk the
allocation map, keep a row when its IP is still in the configured set
and claim that IP by deleting it from the set; what remains of the set
becomes the available pool. -/
def repairAllocated (m : List (String × IPAllocation)) (conf : List String) :
    List (String × IPAllocation) × List String :=
  match m with
  | [] => ([], conf)
  | (id, a) :: rest =>
    if a.IP ∈ conf then
      let r := repairAllocated rest (conf.erase a.IP)
      ((id, a) :: r.1, r.2)
    else
      repairAllocated rest conf

/-- Lexicographic comparison of character lists by code point, the
order `sort.Strings` uses. -/
def charListLe : List Char → List Char → Bool
  | [], _ => true
  | _ :: _, [] => false
  | a :: as, b :: bs =>
    if a.toNat < b.toNat then true
    else if b.toNat < a.toNat then false
    else charListLe as bs

/-- String comparison for sorting. -/
def strLe (a b : String) : Bool := charListLe a.data b.data

/-- Insertion into a sorted list of strings. -/
def orderedInsertStr (x : String) : List String → List String
  | [] => [x]
  | y :: ys => if strLe x y then x :: y :: ys else y :: orderedInsertStr x ys

/-- The `sort.Strings` call of the source: an insertion sort under the
lexicographic order. -/
def sortStrings : List String → List String
  | [] => []
  | x :: xs => orderedInsertStr x (sortStrings xs)

/-- Recovery's `validateAndRepairState` (the deep-comparison variant in
provider.go, the one reached from the facade's `RecoverState`): build
the configured set from the syntactically valid pool IPs, restrict the
allocation map to it, rebuild the available list as the unclaimed
remainder (sorted), and write the repaired state with a bumped version
via `updateState` — with no expected resource version — if and only if
`reflect.DeepEqual` finds either sub-collection changed (the original
available list being sorted before the comparison). -/
def validateAndRepairState (cfg : GlobalVMPoolConfig) (env : Env) (store : KStore)
    (state : IPAllocationState) : KStore × Except StoreErr Unit :=
  let configuredIPs := (cfg.PoolIPs.filter env.validIP).dedup
  let r := repairAllocated state.AllocatedIPs configuredIPs
  let repairedAvailableIPs := sortStrings r.2
  let sortedOriginalAvailableIPs := sortStrings state.AvailableIPs
  if mapDeepEqual r.1 state.AllocatedIPs = true ∧
      repairedAvailableIPs = sortedOriginalAvailableIPs then
    (store, Except.ok ())
  else
    let repairedState : IPAllocationState :=
      { AllocatedIPs := r.1
        AvailableIPs := repairedAvailableIPs
        LastUpdated := env.now
        Version := wrapInt64 (state.Version + 1) }
    match updateState env store repairedState "" with
    | Except.error StoreErr.conflict => (store, Except.error StoreErr.conflict)
    | Except.ok store2 => (store2, Except.ok ())

/-! ### Basic lemmas about the association-list map and the store -/

theorem lookupAlloc_mem {m : List (String × IPAllocation)} {k : String}
    {a : IPAllocation} (h : lookupAlloc m k = some a) : (k, a) ∈ m := by
  induction m with
  | nil => simp [lookupAlloc] at h
  | cons p rest ih =>
    obtain ⟨id, b⟩ := p
    by_cases hid : id = k
    · subst hid
      simp [lookupAlloc] at h
      simp [h]
    · simp [lookupAlloc, hid] at h
      exact List.mem_cons_of_mem _ (ih h)

theorem lookupAlloc_eq_none_iff {m : List (String × IPAllocation)} {k : String} :
    lookupAlloc m k = none ↔ ∀ p ∈ m, p.1 ≠ k := by
  induction m with
  | nil => simp [lookupAlloc]
  | cons p rest ih =>
    obtain ⟨id, b⟩ := p
    by_cases hid : id = k
    · subst hid
      simp [lookupAlloc]
    · simp [lookupAlloc, hid, ih]

theorem lookupAlloc_isSome_iff {m : List (String × IPAllocation)} {k : String} :
    (lookupAlloc m k).isSome = true ↔ ∃ a, (k, a) ∈ m := by
  induction m with
  | nil => simp [lookupAlloc]
  | cons p rest ih =>
    obtain ⟨id, b⟩ := p
    by_cases hid : id = k
    · subst hid
      simp [lookupAlloc]
    · simp [lookupAlloc, hid, ih, Ne.symm hid]

theorem lookupAlloc_append {m1 m2 : List (String × IPAllocation)} {k : String} :
    lookupAlloc (m1 ++ m2) k =
      match lookupAlloc m1 k with
      | some a => some a
      | none => lookupAlloc m2 k := by
  induction m1 with
  | nil => simp [lookupAlloc]
  | cons p rest ih =>
    obtain ⟨id, b⟩ := p
    by_cases hid : id = k
    · simp [lookupAlloc, hid]
    · simp [lookupAlloc, hid, ih]

theorem mapDelete_of_lookup_none {m : List (String × IPAllocation)} {k : String}
    (h : lookupAlloc m k = none) : mapDelete m k = m := by
  rw [lookupAlloc_eq_none_iff] at h
  unfold mapDelete
  exact List.filter_eq_self.mpr (fun p hp => by simpa using h p hp)

theorem mem_keys_of_lookup_some {m : List (String × IPAllocation)} {k : String}
    {a : IPAllocation} (h : lookupAlloc m k = some a) :
    a.IP ∈ allocIPs m := by
  have := lookupAlloc_mem h
  exact List.mem_map.mpr ⟨(k, a), this, rfl⟩

/-- With unique keys, the allocation bound to a key is unique. -/
theorem entry_eq_of_nodup_keys {m : List (String × IPAllocation)} {k : String}
    {a b : IPAllocation} (hkeys : (m.map (fun p => p.1)).Nodup)
    (ha : (k, a) ∈ m) (hb : (k, b) ∈ m) : a = b := by
  have := List.inj_on_of_nodup_map hkeys ha hb rfl
  simpa using congrArg Prod.snd this

/-- Writing against the resource version returned by the read of the
same store never conflicts. -/
theorem updateState_read_rv (cfg : GlobalVMPoolConfig) (env : Env) (store : KStore)
    (st : IPAllocationState) :
    updateState env store st (getCurrentState cfg env store).2 =
      Except.ok (some { stateData := some st, resourceVersion := env.freshRev }) := by
  match store with
  | none => rfl
  | some configMap =>
    match h : configMap.stateData with
    | none =>
      simp [updateState, getCurrentState, h]
    | some s0 =>
      simp [updateState, getCurrentState, h]

/-- Writing with no expected resource version never conflicts. -/
theorem updateState_no_expectation (env : Env) (store : KStore) (st : IPAllocationState) :
    updateState env store st "" =
      Except.ok (some { stateData := some st, resourceVersion := env.freshRev }) := by
  match store with
  | none => rfl
  | some configMap => simp [updateState]

/-! ### Branch characterizations of the allocator bodies -/

/-- The state written by the fresh-allocation path of `doAllocateIP`. -/
def allocWrittenState (cfg : GlobalVMPoolConfig) (env : Env) (store : KStore)
    (allocationID podName podNamespace : String) : IPAllocationState :=
  let state := (getCurrentState cfg env store).1
  let selectedIndex := selectIPIndex env state.AvailableIPs allocationID
  { AllocatedIPs := mapInsert state.AllocatedIPs allocationID
      { AllocationID := allocationID, IP := state.AvailableIPs.getD selectedIndex ""
        NodeName := env.nodeName.getD "", PodName := podName
        PodNamespace := podNamespace, AllocatedAt := env.now }
    AvailableIPs :=
      state.AvailableIPs.take selectedIndex ++
        state.AvailableIPs.drop (selectedIndex + 1)
    LastUpdated := env.now
    Version := wrapInt64 (state.Version + 1) }

theorem doAllocateIP_exists {cfg : GlobalVMPoolConfig} {env : Env} {store : KStore}
    {allocationID podName podNamespace : String} {a : IPAllocation}
    (h : lookupAlloc (getCurrentState cfg env store).1.AllocatedIPs allocationID = some a) :
    doAllocateIP cfg env store allocationID podName podNamespace =
      if env.validIP a.IP then (store, Except.ok a.IP)
      else (store, Except.error PoolErr.invalidAllocatedIP) := by
  unfold doAllocateIP
  simp only [h]

theorem doAllocateIP_empty {cfg : GlobalVMPoolConfig} {env : Env} {store : KStore}
    {allocationID podName podNamespace : String}
    (h : lookupAlloc (getCurrentState cfg env store).1.AllocatedIPs allocationID = none)
    (hA : (getCurrentState cfg env store).1.AvailableIPs = []) :
    doAllocateIP cfg env store allocationID podName podNamespace =
      (store, Except.error PoolErr.noAvailableIPs) := by
  unfold doAllocateIP
  simp only [h, hA]
  rfl

theorem doAllocateIP_fresh {cfg : GlobalVMPoolConfig} {env : Env} {store : KStore}
    {allocationID podName podNamespace nodeName : String}
    (h : lookupAlloc (getCurrentState cfg env store).1.AllocatedIPs allocationID = none)
    (hA : (getCurrentState cfg env store).1.AvailableIPs ≠ [])
    (hn : env.nodeName = some nodeName) :
    doAllocateIP cfg env store allocationID podName podNamespace =
      (let newState := allocWrittenState cfg env store allocationID podName podNamespace
      let ipStr := (getCurrentState cfg env store).1.AvailableIPs.getD
        (selectIPIndex env (getCurrentState cfg env store).1.AvailableIPs allocationID) ""
      if env.validIP ipStr then
        (some { stateData := some newState, resourceVersion := env.freshRev },
          Except.ok ipStr)
      else
        (some { stateData := some newState, resourceVersion := env.freshRev },
          Except.error PoolErr.invalidAllocatedIP)) := by
  have hlen : ¬ (getCurrentState cfg env store).1.AvailableIPs.length = 0 := by
    simpa [List.length_eq_zero] using hA
  unfold doAllocateIP
  simp only [h, hlen, if_false, hn]
  rw [updateState_read_rv]
  simp [allocWrittenState, hn]

theorem doAllocateIP_noNode {cfg : GlobalVMPoolConfig} {env : Env} {store : KStore}
    {allocationID podName podNamespace : String}
    (h : lookupAlloc (getCurrentState cfg env store).1.AllocatedIPs allocationID = none)
    (hA : (getCurrentState cfg env store).1.AvailableIPs ≠ [])
    (hn : env.nodeName = none) :
    doAllocateIP cfg env store allocationID podName podNamespace =
      (store, Except.error PoolErr.nodeNameDetection) := by
  have hlen : ¬ (getCurrentState cfg env store).1.AvailableIPs.length = 0 := by
    simpa [List.length_eq_zero] using hA
  unfold doAllocateIP
  simp only [h, hlen, if_false, hn]

/-- In the sequential model the allocation body never reports a
conflict: the write uses the resource version just read from the same
store. -/
theorem doAllocateIP_no_conflict (cfg : GlobalVMPoolConfig) (env : Env) (store : KStore)
    (allocationID podName podNamespace : String) :
    (doAllocateIP cfg env store allocationID podName podNamespace).2 ≠
      Except.error PoolErr.conflict := by
  match h : lookupAlloc (getCurrentState cfg env store).1.AllocatedIPs allocationID with
  | some a =>
    rw [doAllocateIP_exists h]
    by_cases hv : env.validIP a.IP <;> simp [hv]
  | none =>
    by_cases hA : (getCurrentState cfg env store).1.AvailableIPs = []
    · rw [doAllocateIP_empty h hA]
      simp
    · match hn : env.nodeName with
      | none =>
        rw [doAllocateIP_noNode h hA hn]
        simp
      | some nodeName =>
        rw [doAllocateIP_fresh h hA hn]
        dsimp only
        split <;> simp

theorem doDeallocateIP_none {cfg : GlobalVMPoolConfig} {env : Env} {store : KStore}
    {allocationID : String}
    (h : lookupAlloc (getCurrentState cfg env store).1.AllocatedIPs allocationID = none) :
    doDeallocateIP cfg env store allocationID = (store, Except.ok ()) := by
  unfold doDeallocateIP
  simp only [h]

/-- The state written by the deallocation path of `doDeallocateIP`. -/
def deallocWrittenState (cfg : GlobalVMPoolConfig) (env : Env) (store : KStore)
    (allocationID : String) (allocation : IPAllocation) : IPAllocationState :=
  let state := (getCurrentState cfg env store).1
  { AllocatedIPs := mapDelete state.AllocatedIPs allocationID
    AvailableIPs := state.AvailableIPs ++ [allocation.IP]
    LastUpdated := env.now
    Version := wrapInt64 (state.Version + 1) }

theorem doDeallocateIP_some {cfg : GlobalVMPoolConfig} {env : Env} {store : KStore}
    {allocationID : String} {allocation : IPAllocation}
    (h : lookupAlloc (getCurrentState cfg env store).1.AllocatedIPs allocationID =
      some allocation) :
    doDeallocateIP cfg env store allocationID =
      (some { stateData := some (deallocWrittenState cfg env store allocationID allocation)
              resourceVersion := env.freshRev },
        Except.ok ()) := by
  unfold doDeallocateIP
  simp only [h]
  rw [updateState_read_rv]
  rfl

theorem doDeallocateIP_no_conflict (cfg : GlobalVMPoolConfig) (env : Env) (store : KStore)
    (allocationID : String) :
    (doDeallocateIP cfg env store allocationID).2 ≠ Except.error PoolErr.conflict := by
  match h : lookupAlloc (getCurrentState cfg env store).1.AllocatedIPs allocationID with
  | none => rw [doDeallocateIP_none h]; simp
  | some allocation => rw [doDeallocateIP_some h]; simp

/-- When the body cannot report a conflict, the retry loop is one plain
run of the body. -/
theorem retryOnConflict_eq_body {α : Type} {steps : Nat}
    {body : KStore → KStore × Except PoolErr α} {store : KStore}
    (hbody : (body store).2 ≠ Except.error PoolErr.conflict) (hsteps : 1 ≤ steps) :
    retryOnConflict steps body store = body store := by
  match steps, hsteps with
  | n + 1, _ =>
    unfold retryOnConflict
    match hb : body store with
    | (store2, Except.ok a) => simp
    | (store2, Except.error e) =>
      have he : ¬ e = PoolErr.conflict := by
        intro hc
        exact hbody (by rw [hb, hc])
      simp [he]

theorem AllocateIP_eq_body {cfg : GlobalVMPoolConfig} {env : Env} {steps : Nat}
    {store : KStore} {allocationID podName podNamespace : String}
    (hsteps : 1 ≤ steps) :
    AllocateIP cfg env steps store allocationID podName podNamespace =
      (match doAllocateIP cfg env store allocationID podName podNamespace with
      | (store2, Except.ok ip) => (store2, Except.ok ip)
      | (store2, Except.error e) =>
        (store2, Except.error (PoolErr.allocationRetryExhausted e))) := by
  unfold AllocateIP
  rw [retryOnConflict_eq_body
    (doAllocateIP_no_conflict cfg env store allocationID podName podNamespace) hsteps]

theorem DeallocateIP_eq_body {cfg : GlobalVMPoolConfig} {env : Env} {steps : Nat}
    {store : KStore} {allocationID : String} (hsteps : 1 ≤ steps) :
    DeallocateIP cfg env steps store allocationID =
      (match doDeallocateIP cfg env store allocationID with
      | (store2, Except.ok _) => (store2, Except.ok ())
      | (store2, Except.error e) =>
        (store2, Except.error (PoolErr.deallocationRetryExhausted e))) := by
  unfold DeallocateIP
  rw [retryOnConflict_eq_body
    (doDeallocateIP_no_conflict cfg env store allocationID) hsteps]

/-- Total case analysis of one allocation body run. -/
theorem doAllocateIP_cases (cfg : GlobalVMPoolConfig) (env : Env) (store : KStore)
    (allocationID podName podNamespace : String) :
    (∃ a, lookupAlloc (getCurrentState cfg env store).1.AllocatedIPs allocationID = some a ∧
      doAllocateIP cfg env store allocationID podName podNamespace =
        if env.validIP a.IP then (store, Except.ok a.IP)
        else (store, Except.error PoolErr.invalidAllocatedIP)) ∨
    (lookupAlloc (getCurrentState cfg env store).1.AllocatedIPs allocationID = none ∧
      (getCurrentState cfg env store).1.AvailableIPs = [] ∧
      doAllocateIP cfg env store allocationID podName podNamespace =
        (store, Except.error PoolErr.noAvailableIPs)) ∨
    (lookupAlloc (getCurrentState cfg env store).1.AllocatedIPs allocationID = none ∧
      (getCurrentState cfg env store).1.AvailableIPs ≠ [] ∧ env.nodeName = none ∧
      doAllocateIP cfg env store allocationID podName podNamespace =
        (store, Except.error PoolErr.nodeNameDetection)) ∨
    (lookupAlloc (getCurrentState cfg env store).1.AllocatedIPs allocationID = none ∧
      (getCurrentState cfg env store).1.AvailableIPs ≠ [] ∧ (∃ nn, env.nodeName = some nn) ∧
      doAllocateIP cfg env store allocationID podName podNamespace =
        (let ipStr := (getCurrentState cfg env store).1.AvailableIPs.getD
          (selectIPIndex env (getCurrentState cfg env store).1.AvailableIPs allocationID) ""
        if env.validIP ipStr then
          (some { stateData :=
                    some (allocWrittenState cfg env store allocationID podName podNamespace)
                  resourceVersion := env.freshRev },
            Except.ok ipStr)
        else
          (some { stateData :=
                    some (allocWrittenState cfg env store allocationID podName podNamespace)
                  resourceVersion := env.freshRev },
            Except.error PoolErr.invalidAllocatedIP))) := by
  match h : lookupAlloc (getCurrentState cfg env store).1.AllocatedIPs allocationID with
  | some a => exact Or.inl ⟨a, rfl, doAllocateIP_exists h⟩
  | none =>
    by_cases hA : (getCurrentState cfg env store).1.AvailableIPs = []
    · exact Or.inr (Or.inl ⟨rfl, hA, doAllocateIP_empty h hA⟩)
    · match hn : env.nodeName with
      | none => exact Or.inr (Or.inr (Or.inl ⟨rfl, hA, rfl, doAllocateIP_noNode h hA hn⟩))
      | some nodeName =>
        exact Or.inr (Or.inr (Or.inr ⟨rfl, hA, ⟨nodeName, rfl⟩, doAllocateIP_fresh h hA hn⟩))

/-- `AllocateIP` succeeds exactly when the body does, with the same
store and IP. -/
theorem AllocateIP_ok_iff {cfg : GlobalVMPoolConfig} {env : Env} {steps : Nat}
    {store store2 : KStore} {allocationID podName podNamespace ip : String}
    (hsteps : 1 ≤ steps) :
    AllocateIP cfg env steps store allocationID podName podNamespace =
        (store2, Except.ok ip) ↔
      doAllocateIP cfg env store allocationID podName podNamespace =
        (store2, Except.ok ip) := by
  rw [AllocateIP_eq_body hsteps]
  match hdo : doAllocateIP cfg env store allocationID podName podNamespace with
  | (s, Except.ok i) => simp
  | (s, Except.error e) => simp

/-! ### Concrete fixtures used by the witnesses and counterexamples -/

/-- A two-IP pool configuration. -/
def cfgW : GlobalVMPoolConfig :=
  { Namespace := "ns", ConfigMapName := "cm", PoolIPs := ["10.0.0.1", "10.0.0.2"] }

/-- A concrete environment over `cfgW`: the digest of every string is
four zero bytes, exactly the configured pool IPs parse, the node is
`n1`. -/
def envW : Env :=
  { md5 := fun _ => [0, 0, 0, 0]
    validIP := fun s => cfgW.PoolIPs.contains s
    nodeName := some "n1"
    now := 5
    freshRev := "rv2" }

/-- A concrete allocation row held by `stW`. -/
def allocW : IPAllocation :=
  { AllocationID := "podA-s1", IP := "10.0.0.1", NodeName := "n1"
    PodName := "podA", PodNamespace := "default", AllocatedAt := 1 }

/-- A concrete state: one allocation, one available IP. -/
def stW : IPAllocationState :=
  { AllocatedIPs := [("podA-s1", allocW)], AvailableIPs := ["10.0.0.2"]
    LastUpdated := 1, Version := 3 }

/-- The store holding `stW` at revision `rv1`. -/
def storeW : KStore := some { stateData := some stW, resourceVersion := "rv1" }

/-! ### The claims -/

/-- C10: `updateState` returns a Conflict error if and only if the
expected revision passed to it is non-empty and differs from the
store's current revision at check time; with an empty expected revision
(as recovery's repair writes pass) the write is an unconditional
overwrite that never fails the revision check: it always succeeds and
replaces the stored state. -/
theorem byom_c10 (env : Env) (state : IPAllocationState) (expected : String) :
    (∀ configMap : CMap,
      updateState env (some configMap) state expected = Except.error StoreErr.conflict ↔
        (expected ≠ "" ∧ configMap.resourceVersion ≠ expected)) ∧
    (updateState env none state expected =
      Except.ok (some { stateData := some state, resourceVersion := env.freshRev })) ∧
    (∀ store : KStore,
      updateState env store state "" =
        Except.ok (some { stateData := some state, resourceVersion := env.freshRev })) := by
  refine ⟨fun configMap => ?_, rfl, fun store => updateState_no_expectation env store state⟩
  constructor
  · intro h
    by_contra hc
    simp [updateState, hc] at h
  · intro hc
    simp [updateState, hc]

/-- C7: for every non-empty available list and every allocation ID, the
selection policy returns index 0 when the list has at most one element,
and otherwise the first 32 bits of the digest of the allocation ID,
read big-endian as an unsigned integer, modulo the list length; the
value read from the digest fits in 32 bits, the returned index is
always in bounds, and the same allocation ID with the same digest and
list always yields the same index. -/
theorem byom_c7 (env : Env) (availableIPs : List String) (allocationID : String)
    (h : availableIPs ≠ []) :
    selectIPIndex env availableIPs allocationID < availableIPs.length ∧
    (availableIPs.length ≤ 1 → selectIPIndex env availableIPs allocationID = 0) ∧
    (1 < availableIPs.length →
      selectIPIndex env availableIPs allocationID =
        bigEndianUint32 (env.md5 allocationID) % availableIPs.length) ∧
    bigEndianUint32 (env.md5 allocationID) < 2 ^ 32 ∧
    (∀ env2 : Env, env2.md5 allocationID = env.md5 allocationID →
      selectIPIndex env2 availableIPs allocationID =
        selectIPIndex env availableIPs allocationID) := by
  have hlen : 0 < availableIPs.length := List.length_pos.mpr h
  refine ⟨?_, ?_, ?_, ?_, ?_⟩
  · unfold selectIPIndex
    split
    · exact hlen
    · exact Nat.mod_lt _ hlen
  · intro hle
    simp [selectIPIndex, hle]
  · intro hgt
    have : ¬ availableIPs.length ≤ 1 := by omega
    simp [selectIPIndex, this]
  · unfold bigEndianUint32
    have h0 : (env.md5 allocationID).getD 0 0 % 256 < 256 := Nat.mod_lt _ (by norm_num)
    have h1 : (env.md5 allocationID).getD 1 0 % 256 < 256 := Nat.mod_lt _ (by norm_num)
    have h2 : (env.md5 allocationID).getD 2 0 % 256 < 256 := Nat.mod_lt _ (by norm_num)
    have h3 : (env.md5 allocationID).getD 3 0 % 256 < 256 := Nat.mod_lt _ (by norm_num)
    omega
  · intro env2 hmd
    unfold selectIPIndex
    rw [hmd]

/-- C7 witness: the selection over a concrete three-IP list. -/
theorem byom_c7_witness :
    selectIPIndex envW ["10.0.0.1", "10.0.0.2", "10.0.0.3"] "podA-s1" < 3 ∧
    ((3 : Nat) ≤ 1 → selectIPIndex envW ["10.0.0.1", "10.0.0.2", "10.0.0.3"] "podA-s1" = 0) ∧
    ((1 : Nat) < 3 →
      selectIPIndex envW ["10.0.0.1", "10.0.0.2", "10.0.0.3"] "podA-s1" =
        bigEndianUint32 (envW.md5 "podA-s1") % 3) ∧
    bigEndianUint32 (envW.md5 "podA-s1") < 2 ^ 32 ∧
    (∀ env2 : Env, env2.md5 "podA-s1" = envW.md5 "podA-s1" →
      selectIPIndex env2 ["10.0.0.1", "10.0.0.2", "10.0.0.3"] "podA-s1" =
        selectIPIndex envW ["10.0.0.1", "10.0.0.2", "10.0.0.3"] "podA-s1") :=
  byom_c7 envW ["10.0.0.1", "10.0.0.2", "10.0.0.3"] "podA-s1" (by decide)

/-- C5: when the read state has an empty available list and no
allocation under the given ID, `AllocateIP` fails with the
pool-exhausted error (`ErrNoAvailableIPs`, wrapped by the caller-facing
`ErrAllocationRetryExhausted` as every error of the loop is), the
outcome is the same for every retry budget — the failure does not drive
the conflict-retry loop — and the store is left unchanged. -/
theorem byom_c5 (cfg : GlobalVMPoolConfig) (env : Env) (steps : Nat) (store : KStore)
    (allocationID podName podNamespace : String) (hsteps : 1 ≤ steps)
    (hempty : (getCurrentState cfg env store).1.AvailableIPs = [])
    (hfresh : lookupAlloc (getCurrentState cfg env store).1.AllocatedIPs allocationID = none) :
    AllocateIP cfg env steps store allocationID podName podNamespace =
      (store, Except.error (PoolErr.allocationRetryExhausted PoolErr.noAvailableIPs)) := by
  rw [AllocateIP_eq_body hsteps, doAllocateIP_empty hfresh hempty]

/-- C5 witness: an exhausted two-IP pool denies a fresh allocation and
leaves the store untouched. -/
theorem byom_c5_witness :
    AllocateIP cfgW envW 4
        (some { stateData := some { AllocatedIPs := [("podA-s1", allocW)]
                                    AvailableIPs := []
                                    LastUpdated := 1, Version := 3 }
                resourceVersion := "rv1" })
        "b1" "p" "ns" =
      (some { stateData := some { AllocatedIPs := [("podA-s1", allocW)]
                                  AvailableIPs := []
                                  LastUpdated := 1, Version := 3 }
              resourceVersion := "rv1" },
        Except.error (PoolErr.allocationRetryExhausted PoolErr.noAvailableIPs)) :=
  byom_c5 cfgW envW 4 _ "b1" "p" "ns" (by decide) (by decide) (by decide)

/-- C6: a `DeallocateIP` whose allocation ID is absent from the read
state, and a `DeallocateByIP` whose IP is held by no allocation, both
return success with the store unchanged (idempotent delete). -/
theorem byom_c6 (cfg : GlobalVMPoolConfig) (env : Env) (steps : Nat) (store : KStore)
    (allocationID ip : String) (hsteps : 1 ≤ steps) :
    (lookupAlloc (getCurrentState cfg env store).1.AllocatedIPs allocationID = none →
      DeallocateIP cfg env steps store allocationID = (store, Except.ok ())) ∧
    ((∀ p ∈ (getCurrentState cfg env store).1.AllocatedIPs, p.2.IP ≠ ip) →
      DeallocateByIP cfg env steps store ip = (store, Except.ok ())) := by
  constructor
  · intro h
    rw [DeallocateIP_eq_body hsteps, doDeallocateIP_none h]
  · intro h
    unfold DeallocateByIP
    have hfind : (getCurrentState cfg env store).1.AllocatedIPs.find?
        (fun p => decide (p.2.IP = ip)) = none := by
      rw [List.find?_eq_none]
      intro p hp
      simpa using h p hp
    simp only [hfind]

/-- C6 witness: deleting an unknown ID and an unheld IP on a concrete
store are successful no-ops. -/
theorem byom_c6_witness :
    (lookupAlloc (getCurrentState cfgW envW storeW).1.AllocatedIPs "nope" = none →
      DeallocateIP cfgW envW 4 storeW "nope" = (storeW, Except.ok ())) ∧
    ((∀ p ∈ (getCurrentState cfgW envW storeW).1.AllocatedIPs, p.2.IP ≠ "10.0.0.9") →
      DeallocateByIP cfgW envW 4 storeW "10.0.0.9" = (storeW, Except.ok ())) :=
  byom_c6 cfgW envW 4 storeW "nope" "10.0.0.9" (by decide)

/-- C9 counterexample: with `NODE_NAME` set to a single blank and both
files absent, none of the three sources yields a non-empty
whitespace-trimmed value, yet the resolver succeeds — returning the
empty string as the node name — because the emptiness test on the
environment variable precedes the trim. -/
theorem byom_c9_counterexample :
    getCurrentNodeName
        { envNodeName := " ", nodeNameFileData := none, hostnameFileData := none } =
      Except.ok "" ∧
    trimString " " = "" := by
  constructor
  · rfl
  · rfl

/-- Whether an optional file read yields no usable node name: the read
failed or the contents trim to the empty string. -/
def noFileName (d : Option String) : Prop :=
  ∀ s, d = some s → trimString s = ""

instance (d : Option String) : Decidable (noFileName d) := by
  unfold noFileName
  cases d with
  | none => exact isTrue (by intro s h; cases h)
  | some s =>
    by_cases h : trimString s = ""
    · exact isTrue (by intro t ht; cases ht; exact h)
    · exact isFalse (by intro hf; exact h (hf s rfl))

/-- C9 (amended): the resolver tries the `NODE_NAME` environment
variable, the downward-API file and the hostname file in order; the
environment variable wins whenever its raw value is non-empty and its
value is returned trimmed even when trimming leaves it empty; each file
wins when its trimmed contents are non-empty; the resolver fails only
when the variable is empty or unset and neither file yields a non-empty
trimmed value.  (The source resolves afresh on every call; no value is
cached.) -/
theorem byom_c9_amended (e : NodeEnv) :
    (e.envNodeName ≠ "" → getCurrentNodeName e = Except.ok (trimString e.envNodeName)) ∧
    (e.envNodeName = "" →
      ∀ s, e.nodeNameFileData = some s → trimString s ≠ "" →
        getCurrentNodeName e = Except.ok (trimString s)) ∧
    (e.envNodeName = "" → noFileName e.nodeNameFileData →
      ∀ s, e.hostnameFileData = some s → trimString s ≠ "" →
        getCurrentNodeName e = Except.ok (trimString s)) ∧
    (e.envNodeName = "" → noFileName e.nodeNameFileData →
      noFileName e.hostnameFileData → getCurrentNodeName e = Except.error ()) := by
  refine ⟨?_, ?_, ?_, ?_⟩
  · intro h
    simp [getCurrentNodeName, h]
  · intro h s hs hne
    simp [getCurrentNodeName, h, hs, hne]
  · intro h h1 s hs hne
    unfold getCurrentNodeName
    simp only [h]
    cases h1f : e.nodeNameFileData with
    | none =>
      simp [nodeNameFromHostnameFile, hs, hne]
    | some t =>
      have : trimString t = "" := h1 t h1f
      simp [this, nodeNameFromHostnameFile, hs, hne]
  · intro h h1 h2
    unfold getCurrentNodeName
    simp only [h]
    have hhost : nodeNameFromHostnameFile e = Except.error () := by
      unfold nodeNameFromHostnameFile
      cases h2f : e.hostnameFileData with
      | none => rfl
      | some t => simp [h2 t h2f]
    cases h1f : e.nodeNameFileData with
    | none => simp [hhost]
    | some t => simp [h1 t h1f, hhost]

/-- C9 witness: a blank environment variable falls through to the
downward-API file, whose contents are returned trimmed. -/
theorem byom_c9_amended_witness :
    getCurrentNodeName
        { envNodeName := "", nodeNameFileData := some " node1\n", hostnameFileData := none } =
      Except.ok "node1" :=
  (byom_c9_amended
    { envNodeName := "", nodeNameFileData := some " node1\n", hostnameFileData := none }).2.1
    rfl " node1\n" rfl (by decide)

/-- Reading back a just-written store yields the written state and
revision. -/
theorem getCurrentState_some (cfg : GlobalVMPoolConfig) (env : Env)
    (st : IPAllocationState) (rv : String) :
    getCurrentState cfg env (some { stateData := some st, resourceVersion := rv }) =
      (st, rv) := rfl

/-- C4: `AllocateIP` is idempotent: when an allocation with the given
ID already exists in the read state (and its stored IP re-parses, as
invariant 3 guarantees), the call returns that allocation's IP and the
store is untouched; consequently two `AllocateIP` calls with the same
ID and no intervening deallocation return the same IP — whatever
succeeded once, repeating it returns the same IP and leaves the store
as the first call left it. -/
theorem byom_c4 (cfg : GlobalVMPoolConfig) (env : Env) (steps : Nat) (store : KStore)
    (allocationID podName podNamespace : String) (hsteps : 1 ≤ steps) :
    (∀ a : IPAllocation,
      lookupAlloc (getCurrentState cfg env store).1.AllocatedIPs allocationID = some a →
      env.validIP a.IP = true →
      AllocateIP cfg env steps store allocationID podName podNamespace =
        (store, Except.ok a.IP)) ∧
    (∀ (store2 : KStore) (ip : String),
      AllocateIP cfg env steps store allocationID podName podNamespace =
        (store2, Except.ok ip) →
      AllocateIP cfg env steps store2 allocationID podName podNamespace =
        (store2, Except.ok ip)) := by
  constructor
  · intro a ha hv
    rw [AllocateIP_ok_iff hsteps, doAllocateIP_exists ha, if_pos hv]
  · intro store2 ip h
    rw [AllocateIP_ok_iff hsteps] at h ⊢
    rcases doAllocateIP_cases cfg env store allocationID podName podNamespace with
      ⟨a, ha, heq⟩ | ⟨ha, hA, heq⟩ | ⟨ha, hA, hn, heq⟩ | ⟨ha, hA, ⟨nn, hn⟩, heq⟩
    · rw [heq] at h
      by_cases hv : env.validIP a.IP = true
      · rw [if_pos hv] at h
        injection h with h1 h2
        injection h2 with h2
        subst h1; subst h2
        rw [doAllocateIP_exists ha, if_pos hv]
      · rw [if_neg hv] at h
        exact absurd h (by simp)
    · rw [heq] at h
      exact absurd h (by simp)
    · rw [heq] at h
      exact absurd h (by simp)
    · rw [heq] at h
      dsimp only at h
      by_cases hv : env.validIP ((getCurrentState cfg env store).1.AvailableIPs.getD
          (selectIPIndex env (getCurrentState cfg env store).1.AvailableIPs allocationID) "") = true
      · rw [if_pos hv] at h
        injection h with h1 h2
        injection h2 with h2
        subst h1; subst h2
        have ha2 : lookupAlloc (getCurrentState cfg env (some
            { stateData := some (allocWrittenState cfg env store allocationID podName podNamespace)
              resourceVersion := env.freshRev })).1.AllocatedIPs allocationID =
            some { AllocationID := allocationID
                   IP := (getCurrentState cfg env store).1.AvailableIPs.getD
                     (selectIPIndex env (getCurrentState cfg env store).1.AvailableIPs
                       allocationID) ""
                   NodeName := env.nodeName.getD ""
                   PodName := podName, PodNamespace := podNamespace
                   AllocatedAt := env.now } := by
          rw [getCurrentState_some]
          simp [allocWrittenState, mapInsert, lookupAlloc]
        rw [doAllocateIP_exists ha2, if_pos hv]
      · rw [if_neg hv] at h
        exact absurd h (by simp)

/-- C4 witness: repeating the allocation of `podA-s1` on `storeW`
returns the stored IP and leaves the store unchanged. -/
theorem byom_c4_witness :
    (∀ a : IPAllocation,
      lookupAlloc (getCurrentState cfgW envW storeW).1.AllocatedIPs "podA-s1" = some a →
      envW.validIP a.IP = true →
      AllocateIP cfgW envW 4 storeW "podA-s1" "podA" "default" =
        (storeW, Except.ok a.IP)) ∧
    (∀ (store2 : KStore) (ip : String),
      AllocateIP cfgW envW 4 storeW "podA-s1" "podA" "default" =
        (store2, Except.ok ip) →
      AllocateIP cfgW envW 4 store2 "podA-s1" "podA" "default" =
        (store2, Except.ok ip)) :=
  byom_c4 cfgW envW 4 storeW "podA-s1" "podA" "default" (by decide)

/-- The state invariants of the data model (spec §3): allocated and
available IPs disjoint, no duplicate available IP, no two allocations
sharing an IP, and every IP present drawn from the configured pool. -/
@[reducible] def StateWF (pool : List String) (s : IPAllocationState) : Prop :=
  (∀ ip ∈ allocIPs s.AllocatedIPs, ip ∉ s.AvailableIPs) ∧
  s.AvailableIPs.Nodup ∧
  (allocIPs s.AllocatedIPs).Nodup ∧
  (∀ ip ∈ allocIPs s.AllocatedIPs, ip ∈ pool) ∧
  (∀ ip ∈ s.AvailableIPs, ip ∈ pool)

/-- What claim C1 demands of a written state: allocated and available
disjoint, no duplicate available IP, every IP present in the pool, and
a version strictly above the one read. -/
def WriteOK (pool : List String) (readVersion : Int) (s : IPAllocationState) : Prop :=
  (∀ ip ∈ allocIPs s.AllocatedIPs, ip ∉ s.AvailableIPs) ∧
  s.AvailableIPs.Nodup ∧
  (∀ ip ∈ allocIPs s.AllocatedIPs, ip ∈ pool) ∧
  (∀ ip ∈ s.AvailableIPs, ip ∈ pool) ∧
  readVersion < s.Version

/-- The state held by a store, if any. -/
def storeState : KStore → Option IPAllocationState
  | none => none
  | some configMap => configMap.stateData

/-- Splitting a list at a valid index around its element. -/
theorem getD_decomp {A : List String} {i : Nat} (hi : i < A.length) :
    A = A.take i ++ A.getD i "" :: A.drop (i + 1) := by
  conv_lhs => rw [← List.take_append_drop i A]
  rw [List.drop_eq_getElem_cons hi, List.getD_eq_getElem A "" hi]

/-- Within the `int64` range, the wrapped value is the value itself. -/
theorem wrapInt64_eq_self {x : Int} (hlo : -9223372036854775808 ≤ x)
    (hhi : x < 9223372036854775808) : wrapInt64 x = x := by
  unfold wrapInt64
  have h1 : 0 ≤ x + 9223372036854775808 := by omega
  have h2 : x + 9223372036854775808 < 18446744073709551616 := by omega
  rw [Int.emod_eq_of_lt h1 h2]
  omega

/-- Membership in the IPs of a map after a deletion. -/
theorem mem_allocIPs_delete {m : List (String × IPAllocation)} {id x : String} :
    x ∈ allocIPs (mapDelete m id) ↔ ∃ p, p ∈ m ∧ p.1 ≠ id ∧ p.2.IP = x := by
  unfold mapDelete allocIPs
  constructor
  · intro hx
    obtain ⟨p, hp, hpx⟩ := List.mem_map.mp hx
    have hpf := List.mem_filter.mp hp
    exact ⟨p, hpf.1, by simpa using hpf.2, hpx⟩
  · rintro ⟨p, hpm, hpk, hpx⟩
    exact List.mem_map.mpr ⟨p, List.mem_filter.mpr ⟨hpm, by simpa using hpk⟩, hpx⟩

/-- Membership in the IPs of a map after an insertion. -/
theorem mem_allocIPs_cons {id x : String} {a : IPAllocation}
    {m : List (String × IPAllocation)} :
    x ∈ allocIPs ((id, a) :: m) ↔ x = a.IP ∨ x ∈ allocIPs m := by
  unfold allocIPs
  rw [List.map_cons, List.mem_cons]

/-- The fresh-allocation write preserves the invariants and bumps the
version: moving the selected available IP into a new allocation row. -/
theorem WriteOK_alloc (pool : List String) (st : IPAllocationState) (row : IPAllocation)
    (id : String) (lu : Nat) (i : Nat) (hi : i < st.AvailableIPs.length)
    (hrowIP : row.IP = st.AvailableIPs.getD i "")
    (hwf : StateWF pool st)
    (hlo : -9223372036854775808 ≤ st.Version)
    (hhi : st.Version < 9223372036854775807) :
    WriteOK pool st.Version
      { AllocatedIPs := (id, row) :: st.AllocatedIPs
        AvailableIPs := st.AvailableIPs.take i ++ st.AvailableIPs.drop (i + 1)
        LastUpdated := lu
        Version := wrapInt64 (st.Version + 1) } := by
  obtain ⟨hdisj, hnodupA, hnodupI, hallocP, havailP⟩ := hwf
  set A := st.AvailableIPs with hAdef
  have hsplit := getD_decomp hi
  have hmid : A.getD i "" ∉ A.take i ++ A.drop (i + 1) ∧
      (A.take i ++ A.drop (i + 1)).Nodup := by
    have h0 := hnodupA
    rw [hsplit, List.nodup_middle, List.nodup_cons] at h0
    exact h0
  have hipA : A.getD i "" ∈ A := by
    rw [List.getD_eq_getElem A "" hi]
    exact List.getElem_mem hi
  have hsubA : ∀ x ∈ A.take i ++ A.drop (i + 1), x ∈ A := by
    intro x hx
    rcases List.mem_append.mp hx with hx | hx
    · exact List.mem_of_mem_take hx
    · exact List.mem_of_mem_drop hx
  refine ⟨?_, hmid.2, ?_, ?_, ?_⟩
  · intro x hx
    rcases mem_allocIPs_cons.mp hx with hx1 | hx1
    · subst hx1
      rw [hrowIP]
      exact hmid.1
    · intro hmem
      exact hdisj x hx1 (hsubA x hmem)
  · intro x hx
    rcases mem_allocIPs_cons.mp hx with hx1 | hx1
    · subst hx1
      rw [hrowIP]
      exact havailP _ hipA
    · exact hallocP x hx1
  · intro x hx
    exact havailP x (hsubA x hx)
  · show st.Version < wrapInt64 (st.Version + 1)
    rw [wrapInt64_eq_self (by omega) (by omega)]
    exact lt_add_one _

/-- The deallocation write preserves the invariants and bumps the
version: returning the deleted allocation's IP to the available list. -/
theorem WriteOK_dealloc (pool : List String) (st : IPAllocationState) (a : IPAllocation)
    (id : String) (lu : Nat) (hl : lookupAlloc st.AllocatedIPs id = some a)
    (hwf : StateWF pool st)
    (hlo : -9223372036854775808 ≤ st.Version)
    (hhi : st.Version < 9223372036854775807) :
    WriteOK pool st.Version
      { AllocatedIPs := mapDelete st.AllocatedIPs id
        AvailableIPs := st.AvailableIPs ++ [a.IP]
        LastUpdated := lu
        Version := wrapInt64 (st.Version + 1) } := by
  obtain ⟨hdisj, hnodupA, hnodupI, hallocP, havailP⟩ := hwf
  have haI : a.IP ∈ allocIPs st.AllocatedIPs := mem_keys_of_lookup_some hl
  have haNA : a.IP ∉ st.AvailableIPs := hdisj _ haI
  have hmemA := lookupAlloc_mem hl
  refine ⟨?_, ?_, ?_, ?_, ?_⟩
  · intro x hx hmem
    obtain ⟨p, hpm, hpk, hpx⟩ := mem_allocIPs_delete.mp hx
    have hxI : x ∈ allocIPs st.AllocatedIPs := List.mem_map.mpr ⟨p, hpm, hpx⟩
    rcases List.mem_append.mp hmem with hmem1 | hmem1
    · exact hdisj x hxI hmem1
    · have hxa : x = a.IP := by simpa using hmem1
      subst hxa
      have hpe : p = (id, a) := List.inj_on_of_nodup_map hnodupI hpm hmemA hpx
      exact hpk (by rw [hpe])
  · refine List.Nodup.append hnodupA (List.nodup_singleton _) ?_
    intro x hx hmem
    have hxa : x = a.IP := by simpa using hmem
    subst hxa
    exact haNA hx
  · intro x hx
    obtain ⟨p, hpm, _, hpx⟩ := mem_allocIPs_delete.mp hx
    exact hallocP x (List.mem_map.mpr ⟨p, hpm, hpx⟩)
  · intro x hx
    rcases List.mem_append.mp hx with hx1 | hx1
    · exact havailP x hx1
    · have hxa : x = a.IP := by simpa using hx1
      subst hxa
      exact hallocP _ haI
  · show st.Version < wrapInt64 (st.Version + 1)
    rw [wrapInt64_eq_self (by omega) (by omega)]
    exact lt_add_one _

/-- Bound on the selected index over a non-empty available list. -/
theorem selectIPIndex_lt (env : Env) {A : List String} (allocationID : String)
    (hA : A ≠ []) : selectIPIndex env A allocationID < A.length := by
  have hlen : 0 < A.length := List.length_pos.mpr hA
  unfold selectIPIndex
  split
  · exact hlen
  · exact Nat.mod_lt _ hlen

/-- A state identical in shape to `stW` but read at the largest
`int64` version, used by the C1 counterexample. -/
def stMax : IPAllocationState :=
  { AllocatedIPs := [("podA-s1", allocW)]
    AvailableIPs := ["10.0.0.2"]
    LastUpdated := 1
    Version := 9223372036854775807 }

/-- The state `DeallocateIP` writes from `stMax`: the version increment
wraps to the smallest `int64`. -/
def stMaxAfter : IPAllocationState :=
  { AllocatedIPs := []
    AvailableIPs := ["10.0.0.2", "10.0.0.1"]
    LastUpdated := 5
    Version := -9223372036854775808 }

/-- C1 counterexample: `stMax` satisfies every invariant of the data
model, yet the state written by a successful `DeallocateIP` carries
version `-2^63 < 2^63 - 1`: the source's `state.Version + 1` is an
`int64` addition that wraps at the maximum, so the written version is
not strictly greater than the version read. -/
theorem byom_c1_counterexample :
    StateWF cfgW.PoolIPs stMax ∧
    DeallocateIP cfgW envW 1
        (some { stateData := some stMax, resourceVersion := "rv1" }) "podA-s1" =
      (some { stateData := some stMaxAfter, resourceVersion := "rv2" }, Except.ok ()) ∧
    stMaxAfter.Version < stMax.Version :=
  ⟨by decide, by decide, by decide⟩

/-- C1 (amended): starting from a read state satisfying the invariants
whose version lies in the `int64` range strictly below the maximum (so
the increment does not wrap), any store write performed by a successful
`AllocateIP` or `DeallocateIP` (a success either leaves the store
untouched or writes) produces a state whose allocated and available
IPs are disjoint, whose available list has no duplicates, all of whose
IPs are from the configured pool, and whose version is strictly
greater than the version read; at the maximum version the `int64`
increment wraps to the minimum and the written version is smaller. -/
theorem byom_c1_amended (cfg : GlobalVMPoolConfig) (env : Env) (steps : Nat)
    (store : KStore) (allocationID podName podNamespace : String) (hsteps : 1 ≤ steps)
    (hwf : StateWF cfg.PoolIPs (getCurrentState cfg env store).1)
    (hlo : -9223372036854775808 ≤ (getCurrentState cfg env store).1.Version)
    (hhi : (getCurrentState cfg env store).1.Version < 9223372036854775807) :
    (∀ (store2 : KStore) (ip : String),
      AllocateIP cfg env steps store allocationID podName podNamespace =
        (store2, Except.ok ip) →
      store2 = store ∨ ∃ s2, storeState store2 = some s2 ∧
        WriteOK cfg.PoolIPs (getCurrentState cfg env store).1.Version s2) ∧
    (∀ store2 : KStore,
      DeallocateIP cfg env steps store allocationID = (store2, Except.ok ()) →
      store2 = store ∨ ∃ s2, storeState store2 = some s2 ∧
        WriteOK cfg.PoolIPs (getCurrentState cfg env store).1.Version s2) := by
  constructor
  · intro store2 ip h
    rw [AllocateIP_ok_iff hsteps] at h
    rcases doAllocateIP_cases cfg env store allocationID podName podNamespace with
      ⟨a, ha, heq⟩ | ⟨ha, hA, heq⟩ | ⟨ha, hA, hn, heq⟩ | ⟨ha, hA, ⟨nn, hn⟩, heq⟩
    · rw [heq] at h
      left
      by_cases hv : env.validIP a.IP = true
      · rw [if_pos hv] at h
        injection h with h1 h2
        exact h1.symm
      · rw [if_neg hv] at h
        exact absurd h (by simp)
    · rw [heq] at h
      exact absurd h (by simp)
    · rw [heq] at h
      exact absurd h (by simp)
    · rw [heq] at h
      dsimp only at h
      by_cases hv : env.validIP ((getCurrentState cfg env store).1.AvailableIPs.getD
          (selectIPIndex env (getCurrentState cfg env store).1.AvailableIPs allocationID) "") = true
      · rw [if_pos hv] at h
        injection h with h1 h2
        right
        refine ⟨allocWrittenState cfg env store allocationID podName podNamespace,
          by rw [← h1]; rfl, ?_⟩
        have hi := selectIPIndex_lt env (A := (getCurrentState cfg env store).1.AvailableIPs)
          allocationID hA
        exact WriteOK_alloc cfg.PoolIPs (getCurrentState cfg env store).1 _ allocationID
          env.now _ hi rfl hwf hlo hhi
      · rw [if_neg hv] at h
        exact absurd h (by simp)
  · intro store2 h
    rw [DeallocateIP_eq_body hsteps] at h
    match hl : lookupAlloc (getCurrentState cfg env store).1.AllocatedIPs allocationID with
    | none =>
      rw [doDeallocateIP_none hl] at h
      left
      injection h with h1 h2
      exact h1.symm
    | some a =>
      rw [doDeallocateIP_some hl] at h
      right
      injection h with h1 h2
      refine ⟨deallocWrittenState cfg env store allocationID a, by rw [← h1]; rfl, ?_⟩
      exact WriteOK_dealloc cfg.PoolIPs (getCurrentState cfg env store).1 a allocationID
        env.now hl hwf hlo hhi

/-- C1 amended witness: on the concrete store `storeW` (read version 3,
far below the maximum) both a fresh allocation and a deallocation
either leave the store unchanged or write an invariant-preserving state
with a larger version. -/
theorem byom_c1_amended_witness :
    (∀ (store2 : KStore) (ip : String),
      AllocateIP cfgW envW 4 storeW "b1" "p" "ns" = (store2, Except.ok ip) →
      store2 = storeW ∨ ∃ s2, storeState store2 = some s2 ∧
        WriteOK cfgW.PoolIPs (getCurrentState cfgW envW storeW).1.Version s2) ∧
    (∀ store2 : KStore,
      DeallocateIP cfgW envW 4 storeW "b1" = (store2, Except.ok ()) →
      store2 = storeW ∨ ∃ s2, storeState store2 = some s2 ∧
        WriteOK cfgW.PoolIPs (getCurrentState cfgW envW storeW).1.Version s2) :=
  byom_c1_amended cfgW envW 4 storeW "b1" "p" "ns" (by decide) (by decide)
    (by decide) (by decide)

/-- The repair loop equals a plain restriction of the allocation map to
the configured set, paired with the set-difference remainder, provided
no two allocations share an IP and the configured set has no
duplicates. -/
theorem repairAllocated_spec (m : List (String × IPAllocation)) (conf : List String)
    (hinj : (allocIPs m).Nodup) (hconf : conf.Nodup) :
    repairAllocated m conf =
      (m.filter (fun p => p.2.IP ∈ conf),
        conf.filter (fun ip =>
          ip ∉ allocIPs (m.filter (fun p => p.2.IP ∈ conf)))) := by
  induction m generalizing conf with
  | nil =>
    unfold repairAllocated
    simp [allocIPs]
  | cons hd rest ih =>
    obtain ⟨id, a⟩ := hd
    have hinj2 : (allocIPs rest).Nodup := by
      rw [show allocIPs ((id, a) :: rest) = a.IP :: allocIPs rest from rfl,
        List.nodup_cons] at hinj
      exact hinj.2
    have hnotin : a.IP ∉ allocIPs rest := by
      rw [show allocIPs ((id, a) :: rest) = a.IP :: allocIPs rest from rfl,
        List.nodup_cons] at hinj
      exact hinj.1
    have hfilter_indep : ∀ conf2 : List String, conf2.Nodup → a.IP ∉ conf2 ∨ True →
        True := fun _ _ _ => trivial
    by_cases hmem : a.IP ∈ conf
    · have herase_eq : rest.filter (fun p => p.2.IP ∈ conf.erase a.IP) =
          rest.filter (fun p => p.2.IP ∈ conf) := by
        apply List.filter_congr
        intro p hp
        have hne : p.2.IP ≠ a.IP := by
          intro he
          exact hnotin (he ▸ List.mem_map.mpr ⟨p, hp, rfl⟩)
        simp only [decide_eq_decide]
        exact List.mem_erase_of_ne hne
      rw [show repairAllocated ((id, a) :: rest) conf =
          ((id, a) :: (repairAllocated rest (conf.erase a.IP)).1,
            (repairAllocated rest (conf.erase a.IP)).2) from by
        simp only [repairAllocated, if_pos hmem]]
      rw [ih (conf.erase a.IP) hinj2 (hconf.erase _), herase_eq]
      rw [Prod.mk.injEq]
      refine ⟨?_, ?_⟩
      · rw [List.filter_cons_of_pos (by simpa using hmem)]
      · have herase_filter : conf.erase a.IP = conf.filter (fun x => x ≠ a.IP) := by
          rw [hconf.erase_eq_filter]
          apply List.filter_congr
          intro x _
          cases hb : (x == a.IP) <;> cases hd : decide (x = a.IP) <;> simp_all [bne]
        rw [herase_filter, List.filter_filter,
          List.filter_cons_of_pos (by simpa using hmem)]
        apply List.filter_congr
        intro x _
        rw [show allocIPs ((id, a) :: rest.filter (fun p => p.2.IP ∈ conf)) =
          a.IP :: allocIPs (rest.filter (fun p => p.2.IP ∈ conf)) from rfl]
        cases hxa : decide (x = a.IP) <;> cases hxr : decide
            (x ∈ allocIPs (rest.filter (fun p => p.2.IP ∈ conf))) <;>
          simp_all
    · rw [show repairAllocated ((id, a) :: rest) conf = repairAllocated rest conf from by
        simp only [repairAllocated, if_neg hmem]]
      rw [ih conf hinj2 hconf]
      rw [List.filter_cons_of_neg (by simpa using hmem)]

/-- C2: recovery's repair computes exactly the allocations restricted
to the configured pool and the available list rebuilt as the sorted
remainder of the configured pool; the repaired state is written back —
with the version bumped by one — if and only if either deep comparison
(the allocation maps, or the available lists after sorting) detects a
change, and an already-consistent state is never rewritten. -/
theorem byom_c2 (cfg : GlobalVMPoolConfig) (env : Env) (store : KStore)
    (state : IPAllocationState)
    (hinj : (allocIPs state.AllocatedIPs).Nodup) :
    validateAndRepairState cfg env store state =
      (let conf := (cfg.PoolIPs.filter env.validIP).dedup
      let keptA := state.AllocatedIPs.filter (fun p => p.2.IP ∈ conf)
      let rebuiltAvail := sortStrings (conf.filter (fun ip => ip ∉ allocIPs keptA))
      if mapDeepEqual keptA state.AllocatedIPs = true ∧
          rebuiltAvail = sortStrings state.AvailableIPs then
        (store, Except.ok ())
      else
        (some { stateData := some
                  { AllocatedIPs := keptA
                    AvailableIPs := rebuiltAvail
                    LastUpdated := env.now
                    Version := wrapInt64 (state.Version + 1) }
                resourceVersion := env.freshRev },
          Except.ok ())) := by
  simp only [validateAndRepairState]
  rw [repairAllocated_spec state.AllocatedIPs _ hinj (List.nodup_dedup _)]
  dsimp only
  split_ifs with hcond
  · rfl
  · rw [updateState_no_expectation]

/-- C2 witness: a state holding a rogue allocated IP and a duplicated
available IP is repaired to the full sorted pool with a bumped version
(end-to-end scenario 3 of the spec). -/
theorem byom_c2_witness :
    validateAndRepairState cfgW envW
        (some { stateData := some
                  { AllocatedIPs :=
                      [("a1", { AllocationID := "a1", IP := "10.0.0.99", NodeName := "n1"
                                PodName := "p", PodNamespace := "d", AllocatedAt := 1 })]
                    AvailableIPs := ["10.0.0.1", "10.0.0.1"]
                    LastUpdated := 1, Version := 3 }
                resourceVersion := "rv1" })
        { AllocatedIPs :=
            [("a1", { AllocationID := "a1", IP := "10.0.0.99", NodeName := "n1"
                      PodName := "p", PodNamespace := "d", AllocatedAt := 1 })]
          AvailableIPs := ["10.0.0.1", "10.0.0.1"]
          LastUpdated := 1, Version := 3 } =
      (some { stateData := some
                { AllocatedIPs := []
                  AvailableIPs := ["10.0.0.1", "10.0.0.2"]
                  LastUpdated := 5
                  Version := 4 }
              resourceVersion := "rv2" },
        Except.ok ()) :=
  (byom_c2 cfgW envW
    (some { stateData := some
              { AllocatedIPs :=
                  [("a1", { AllocationID := "a1", IP := "10.0.0.99", NodeName := "n1"
                            PodName := "p", PodNamespace := "d", AllocatedAt := 1 })]
                AvailableIPs := ["10.0.0.1", "10.0.0.1"]
                LastUpdated := 1, Version := 3 }
            resourceVersion := "rv1" })
    { AllocatedIPs :=
        [("a1", { AllocationID := "a1", IP := "10.0.0.99", NodeName := "n1"
                  PodName := "p", PodNamespace := "d", AllocatedAt := 1 })]
      AvailableIPs := ["10.0.0.1", "10.0.0.1"]
      LastUpdated := 1, Version := 3 } (by decide)).trans (by decide)

/-- Any successful `updateState` writes exactly the given state at the
fresh revision. -/
theorem updateState_ok_shape {env : Env} {store : KStore} {st : IPAllocationState}
    {rv : String} {ks : KStore} (h : updateState env store st rv = Except.ok ks) :
    ks = some { stateData := some st, resourceVersion := env.freshRev } := by
  cases store with
  | none =>
    simp only [updateState] at h
    exact (Except.ok.inj h).symm
  | some configMap =>
    simp only [updateState] at h
    split at h
    · exact absurd h (by simp)
    · exact (Except.ok.inj h).symm

/-- With a callback provided, a recorded cleanup failure means exactly:
the IP parses and the callback returned an error. -/
theorem cleanupFailed_some (env : Env) (f : String → Option Unit) (ip : String) :
    cleanupFailed env (some f) ip = true ↔
      (env.validIP ip = true ∧ (f ip).isSome = true) := by
  simp only [cleanupFailed]
  cases hv : env.validIP ip <;> cases hq : (f ip).isSome <;> simp

/-- A local allocation rooted at an unparseable IP, used by the C3
counterexample: the recovery release path frees it without any cleanup
confirmation. -/
def stC3 : IPAllocationState :=
  { AllocatedIPs :=
      [("a1", { AllocationID := "a1", IP := "bad", NodeName := "n1"
                PodName := "p", PodNamespace := "d", AllocatedAt := 1 })]
    AvailableIPs := []
    LastUpdated := 1
    Version := 7 }

/-- C3 counterexample: the node `n1` holds one allocation whose IP
string `bad` does not parse, and the cleanup callback fails on every
input — so no `vm_cleanup` invocation ever returned success — yet
`releaseNodeAllocations` moves `bad` into the available list (an absent
entry in `vmCleanupResults` reads as success).  The claim requires the
allocation to be kept. -/
theorem byom_c3_counterexample :
    releaseNodeAllocations envW (some (fun _ => some ()))
        (some { stateData := some stC3, resourceVersion := "rv1" }) stC3 "n1" "rv1" =
      (some { stateData := some
                { AllocatedIPs := [], AvailableIPs := ["bad"]
                  LastUpdated := 5, Version := 8 }
              resourceVersion := "rv2" },
        Except.ok ()) ∧
    envW.validIP "bad" = false ∧
    (fun (_ : String) => (some () : Option Unit)) "bad" = some () :=
  ⟨by decide, by decide, rfl⟩

/-- C3 (amended): when a cleanup callback is provided, recovery moves a
local allocation's IP to available exactly when the callback was
invoked for it and returned success, or the IP string fails address
parsing — in which case the callback is never invoked but the IP is
still released; an allocation whose callback returned an error is kept
in the allocated map. -/
theorem byom_c3_amended (env : Env) (f : String → Option Unit) (store : KStore)
    (state : IPAllocationState) (nodeName resourceVersion : String)
    (id : String) (a : IPAllocation) (store2 : KStore)
    (hkeys : (state.AllocatedIPs.map (fun p => p.1)).Nodup)
    (hdisj : ∀ ip ∈ allocIPs state.AllocatedIPs, ip ∉ state.AvailableIPs)
    (hmem : (id, a) ∈ state.AllocatedIPs)
    (hnode : a.NodeName = nodeName)
    (hrun : releaseNodeAllocations env (some f) store state nodeName resourceVersion =
      (store2, Except.ok ())) :
    ∃ s2, storeState store2 = some s2 ∧
      (a.IP ∈ s2.AvailableIPs ↔ (env.validIP a.IP = false ∨ f a.IP = none)) ∧
      ((lookupAlloc s2.AllocatedIPs id).isSome = true ↔
        (env.validIP a.IP = true ∧ (f a.IP).isSome = true)) := by
  have hmemL : (id, a) ∈ state.AllocatedIPs.filter (fun p => p.2.NodeName = nodeName) :=
    List.mem_filter.mpr ⟨hmem, by simpa using hnode⟩
  have haI : a.IP ∈ allocIPs (state.AllocatedIPs.filter
      (fun p => p.2.NodeName = nodeName)) :=
    List.mem_map.mpr ⟨(id, a), hmemL, rfl⟩
  have hlen : ¬ (allocIPs (state.AllocatedIPs.filter
      (fun p => p.2.NodeName = nodeName))).length = 0 := by
    intro h0
    rw [List.length_eq_zero] at h0
    rw [h0] at haI
    exact absurd haI (List.not_mem_nil _)
  unfold releaseNodeAllocations at hrun
  rw [if_neg hlen] at hrun
  dsimp only at hrun
  revert hrun
  match hupd : updateState env store
      { AllocatedIPs :=
          state.AllocatedIPs.filter (fun p => ¬ p.2.NodeName = nodeName) ++
            (state.AllocatedIPs.filter (fun p => p.2.NodeName = nodeName)).filter
              (fun p => cleanupFailed env (some f) p.2.IP)
        AvailableIPs := state.AvailableIPs ++
          (allocIPs (state.AllocatedIPs.filter
            (fun p => p.2.NodeName = nodeName))).filter
              (fun ipStr => ¬ cleanupFailed env (some f) ipStr = true)
        LastUpdated := env.now
        Version := wrapInt64 (state.Version + 1) } resourceVersion with
  | Except.error e =>
    intro hrun
    cases e
    exact absurd (congrArg Prod.snd hrun) (by simp)
  | Except.ok ks =>
    intro hrun
    have hks := updateState_ok_shape hupd
    have hstore2 : store2 = ks := (congrArg Prod.fst hrun).symm
    subst hstore2
    rw [hks]
    refine ⟨_, rfl, ?_, ?_⟩
    · constructor
      · intro hmemA
        rcases List.mem_append.mp hmemA with h1 | h1
        · exact absurd h1 (hdisj _ (List.mem_map.mpr ⟨(id, a), hmem, rfl⟩))
        · have h2 : decide (¬ cleanupFailed env (some f) a.IP = true) = true :=
            (List.mem_filter.mp h1).2
          rw [decide_eq_true_eq, cleanupFailed_some] at h2
          rcases not_and_or.mp h2 with hv | hq
          · left
            simpa using hv
          · right
            exact Option.not_isSome_iff_eq_none.mp (by simpa using hq)
      · intro hcase
        refine List.mem_append_right _ (List.mem_filter.mpr ⟨haI, ?_⟩)
        show decide (¬ cleanupFailed env (some f) a.IP = true) = true
        rw [decide_eq_true_eq, cleanupFailed_some]
        rintro ⟨hv2, hq2⟩
        rcases hcase with hv | hf
        · rw [hv] at hv2
          exact absurd hv2 (by simp)
        · rw [hf] at hq2
          exact absurd hq2 (by simp)
    · rw [lookupAlloc_append]
      have hothers : lookupAlloc (state.AllocatedIPs.filter
          (fun p => ¬ p.2.NodeName = nodeName)) id = none := by
        rw [lookupAlloc_eq_none_iff]
        rintro ⟨p1, p2⟩ hp hpk
        have hpf := List.mem_filter.mp hp
        have hpid : p1 = id := hpk
        subst hpid
        have hpa : p2 = a := entry_eq_of_nodup_keys hkeys hpf.1 hmem
        subst hpa
        exact absurd (by simpa using hnode) (by simpa using hpf.2)
      rw [hothers]
      constructor
      · intro hsome
        obtain ⟨b, hb⟩ := lookupAlloc_isSome_iff.mp hsome
        have hbf := List.mem_filter.mp hb
        have hbL := List.mem_filter.mp hbf.1
        have hba : b = a := entry_eq_of_nodup_keys hkeys hbL.1 hmem
        subst hba
        have h2 : cleanupFailed env (some f) b.IP = true := hbf.2
        exact (cleanupFailed_some env f b.IP).mp h2
      · rintro ⟨hv, hf⟩
        apply lookupAlloc_isSome_iff.mpr
        refine ⟨a, List.mem_filter.mpr ⟨hmemL, ?_⟩⟩
        show cleanupFailed env (some f) a.IP = true
        exact (cleanupFailed_some env f a.IP).mpr ⟨hv, hf⟩

/-- A concrete state with one local allocation at a valid IP, for the
C3 amended witness. -/
def stC3b : IPAllocationState :=
  { AllocatedIPs :=
      [("a2", { AllocationID := "a2", IP := "10.0.0.1", NodeName := "n1"
                PodName := "p", PodNamespace := "d", AllocatedAt := 1 })]
    AvailableIPs := []
    LastUpdated := 1
    Version := 7 }

/-- The store written by releasing `stC3b`'s allocation. -/
def storeC3bAfter : KStore :=
  some { stateData := some
           { AllocatedIPs := [], AvailableIPs := ["10.0.0.1"]
             LastUpdated := 5, Version := 8 }
         resourceVersion := "rv2" }

/-- C3 amended witness: a local allocation at a valid IP whose cleanup
callback succeeds is released into the available list and removed from
the allocated map. -/
theorem byom_c3_amended_witness :
    ∃ s2, storeState storeC3bAfter = some s2 ∧
      ("10.0.0.1" ∈ s2.AvailableIPs ↔
        (envW.validIP "10.0.0.1" = false ∨
          (fun (_ : String) => (none : Option Unit)) "10.0.0.1" = none)) ∧
      ((lookupAlloc s2.AllocatedIPs "a2").isSome = true ↔
        (envW.validIP "10.0.0.1" = true ∧
          ((fun (_ : String) => (none : Option Unit)) "10.0.0.1").isSome = true)) :=
  byom_c3_amended envW (fun _ => none)
    (some { stateData := some stC3b, resourceVersion := "rv1" })
    stC3b "n1" "rv1" "a2"
    { AllocationID := "a2", IP := "10.0.0.1", NodeName := "n1"
      PodName := "p", PodNamespace := "d", AllocatedAt := 1 }
    storeC3bAfter
    (by decide) (by decide) (by decide) (by decide) (by decide)

/-- C8 counterexample: `storeW` already holds the allocation
`podA-s1 → 10.0.0.1`.  Calling `CreateInstance` for the same pod and
sandbox (an idempotent repeat) and failing the user-data push makes the
rollback deallocate the *pre-existing* allocation: the final pool —
allocation gone, its IP back in the available list — differs from the
pool the caller observed before the call, contradicting the claim that
every non-pool-exhausted failure leaves the pool unchanged. -/
theorem byom_c8_counterexample :
    CreateInstance cfgW envW 1 (Except.ok "ud") (fun _ _ => false) storeW "podA" "s1" =
      (some { stateData := some
                { AllocatedIPs := []
                  AvailableIPs := ["10.0.0.2", "10.0.0.1"]
                  LastUpdated := 5, Version := 4 }
              resourceVersion := "rv2" },
        Except.error CreateInstanceErr.sendFailed) ∧
    ¬ ((getCurrentState cfgW envW
          (CreateInstance cfgW envW 1 (Except.ok "ud") (fun _ _ => false)
            storeW "podA" "s1").1).1.AllocatedIPs =
        (getCurrentState cfgW envW storeW).1.AllocatedIPs) :=
  ⟨by decide, by decide⟩

/-- The element read at a valid index is a member. -/
theorem getD_mem_of_lt {A : List String} {i : Nat} (hi : i < A.length) :
    A.getD i "" ∈ A := by
  rw [List.getD_eq_getElem A "" hi]
  exact List.getElem_mem hi

/-- A failing allocation body leaves the store untouched, provided the
allocation ID is fresh and the available IPs all parse (so the
post-write re-parse cannot fail). -/
theorem doAllocateIP_error_store (cfg : GlobalVMPoolConfig) (env : Env) (store : KStore)
    (allocationID podName podNamespace : String)
    (hfresh : lookupAlloc (getCurrentState cfg env store).1.AllocatedIPs allocationID = none)
    (hval : ∀ ip ∈ (getCurrentState cfg env store).1.AvailableIPs, env.validIP ip = true) :
    ∀ e, doAllocateIP cfg env store allocationID podName podNamespace =
        ((doAllocateIP cfg env store allocationID podName podNamespace).1,
          Except.error e) →
      (doAllocateIP cfg env store allocationID podName podNamespace).1 = store := by
  intro e h
  rcases doAllocateIP_cases cfg env store allocationID podName podNamespace with
    ⟨a, ha, heq⟩ | ⟨ha, hA, heq⟩ | ⟨ha, hA, hn, heq⟩ | ⟨ha, hA, ⟨nn, hn⟩, heq⟩
  · rw [ha] at hfresh
    exact absurd hfresh (by simp)
  · rw [heq]
  · rw [heq]
  · have hi := selectIPIndex_lt env (A := (getCurrentState cfg env store).1.AvailableIPs)
      allocationID hA
    have hv : env.validIP ((getCurrentState cfg env store).1.AvailableIPs.getD
        (selectIPIndex env (getCurrentState cfg env store).1.AvailableIPs allocationID) "") =
        true :=
      hval _ (getD_mem_of_lt hi)
    rw [heq] at h
    dsimp only at h
    rw [if_pos hv] at h
    exact absurd (congrArg Prod.snd h) (by simp)

/-- Deallocating the allocation just written by a fresh allocation
restores the pool: the allocated map returns to exactly the read one,
and the available list to a permutation of the read one. -/
theorem rollback_restores (cfg : GlobalVMPoolConfig) (env : Env) (steps : Nat)
    (store : KStore) (allocationID podName podNamespace : String) (hsteps : 1 ≤ steps)
    (hfresh : lookupAlloc (getCurrentState cfg env store).1.AllocatedIPs allocationID = none)
    (hA : (getCurrentState cfg env store).1.AvailableIPs ≠ []) :
    (getCurrentState cfg env
        (DeallocateIP cfg env steps
          (some { stateData :=
                    some (allocWrittenState cfg env store allocationID podName podNamespace)
                  resourceVersion := env.freshRev })
          allocationID).1).1.AllocatedIPs =
      (getCurrentState cfg env store).1.AllocatedIPs ∧
    (getCurrentState cfg env
        (DeallocateIP cfg env steps
          (some { stateData :=
                    some (allocWrittenState cfg env store allocationID podName podNamespace)
                  resourceVersion := env.freshRev })
          allocationID).1).1.AvailableIPs.Perm
      (getCurrentState cfg env store).1.AvailableIPs := by
  set st := (getCurrentState cfg env store).1 with hst
  set i := selectIPIndex env st.AvailableIPs allocationID with hidef
  have hi : i < st.AvailableIPs.length := selectIPIndex_lt env allocationID hA
  set row : IPAllocation :=
    { AllocationID := allocationID, IP := st.AvailableIPs.getD i ""
      NodeName := env.nodeName.getD "", PodName := podName
      PodNamespace := podNamespace, AllocatedAt := env.now } with hrow
  have hlook : lookupAlloc (getCurrentState cfg env
      (some { stateData :=
                some (allocWrittenState cfg env store allocationID podName podNamespace)
              resourceVersion := env.freshRev })).1.AllocatedIPs allocationID = some row := by
    rw [getCurrentState_some]
    simp [allocWrittenState, mapInsert, lookupAlloc, hrow, hidef, hst]
  rw [DeallocateIP_eq_body hsteps, doDeallocateIP_some hlook]
  dsimp only
  rw [getCurrentState_some]
  unfold deallocWrittenState
  rw [getCurrentState_some]
  constructor
  · show mapDelete (allocWrittenState cfg env store allocationID podName podNamespace).AllocatedIPs
        allocationID = st.AllocatedIPs
    have h1 : (allocWrittenState cfg env store allocationID podName
        podNamespace).AllocatedIPs = (allocationID, row) :: st.AllocatedIPs := rfl
    rw [h1]
    unfold mapDelete
    rw [List.filter_cons_of_neg (by simp)]
    exact mapDelete_of_lookup_none hfresh
  · show ((allocWrittenState cfg env store allocationID podName
        podNamespace).AvailableIPs ++ [row.IP]).Perm st.AvailableIPs
    have h2 : (allocWrittenState cfg env store allocationID podName
        podNamespace).AvailableIPs =
        st.AvailableIPs.take i ++ st.AvailableIPs.drop (i + 1) := rfl
    rw [h2]
    have h3 : row.IP = st.AvailableIPs.getD i "" := rfl
    rw [h3]
    have hp1 : ((st.AvailableIPs.take i ++ st.AvailableIPs.drop (i + 1)) ++
        [st.AvailableIPs.getD i ""]).Perm
          (st.AvailableIPs.getD i "" ::
            (st.AvailableIPs.take i ++ st.AvailableIPs.drop (i + 1))) :=
      List.perm_append_singleton _ _
    have hp2 : (st.AvailableIPs.getD i "" ::
        (st.AvailableIPs.take i ++ st.AvailableIPs.drop (i + 1))).Perm
          (st.AvailableIPs.take i ++
            st.AvailableIPs.getD i "" :: st.AvailableIPs.drop (i + 1)) :=
      List.perm_middle.symm
    have hp3 := hp1.trans hp2
    rw [← getD_decomp hi] at hp3
    exact hp3

/-- C8 (amended): provided the allocation ID built from the pod name
and sandbox ID is fresh in the read state — the allocation is made by
this call — every failing `CreateInstance` with a well-formed pool
(invariants hold, configured IPs parse) leaves the pool as the caller
observed it: the allocated map is unchanged and the available list is a
permutation of the original.  (When the ID already has an allocation, a
failure after the idempotent repeat deallocates that pre-existing
allocation, as the counterexample shows.) -/
theorem byom_c8_amended (cfg : GlobalVMPoolConfig) (env : Env) (steps : Nat)
    (generate : Except Unit String) (send : String → String → Bool)
    (store : KStore) (podName sandboxID : String) (hsteps : 1 ≤ steps)
    (hwf : StateWF cfg.PoolIPs (getCurrentState cfg env store).1)
    (hvalid : ∀ ip ∈ cfg.PoolIPs, env.validIP ip = true)
    (hfresh : lookupAlloc (getCurrentState cfg env store).1.AllocatedIPs
      (podName ++ "-" ++ sandboxID) = none) :
    ∀ (store2 : KStore) (e : CreateInstanceErr),
      CreateInstance cfg env steps generate send store podName sandboxID =
        (store2, Except.error e) →
      (getCurrentState cfg env store2).1.AllocatedIPs =
        (getCurrentState cfg env store).1.AllocatedIPs ∧
      (getCurrentState cfg env store2).1.AvailableIPs.Perm
        (getCurrentState cfg env store).1.AvailableIPs := by
  intro store2 e h
  have hval : ∀ ip ∈ (getCurrentState cfg env store).1.AvailableIPs,
      env.validIP ip = true := by
    intro ip hip
    exact hvalid ip (hwf.2.2.2.2 ip hip)
  unfold CreateInstance at h
  dsimp only at h
  rcases hA : AllocateIP cfg env steps store (podName ++ "-" ++ sandboxID)
      (match podName.splitOn "/" with
        | [ns, name] => (ns, name)
        | _ => ("default", podName)).2
      (match podName.splitOn "/" with
        | [ns, name] => (ns, name)
        | _ => ("default", podName)).1 with ⟨store1, r1⟩
  rw [hA] at h
  rcases r1 with e0 | ip
  · dsimp only at h
    have hs2 : store2 = store1 := (congrArg Prod.fst h).symm
    have hstore1 : store1 = store := by
      rw [AllocateIP_eq_body hsteps] at hA
      rcases hdo : doAllocateIP cfg env store (podName ++ "-" ++ sandboxID)
          (match podName.splitOn "/" with
            | [ns, name] => (ns, name)
            | _ => ("default", podName)).2
          (match podName.splitOn "/" with
            | [ns, name] => (ns, name)
            | _ => ("default", podName)).1 with ⟨s, r2⟩
      rw [hdo] at hA
      rcases r2 with e1 | ip2
      · dsimp only at hA
        have hss : s = store := by
          have hform := doAllocateIP_error_store cfg env store (podName ++ "-" ++ sandboxID)
            _ _ hfresh hval e1 (by rw [hdo])
          rw [hdo] at hform
          exact hform
        have hs1 : store1 = s := by
          have := congrArg Prod.fst hA
          simpa using this.symm
        rw [hs1, hss]
      · dsimp only at hA
        exact absurd (congrArg Prod.snd hA) (by simp)
    rw [hs2, hstore1]
    exact ⟨rfl, List.Perm.refl _⟩
  · dsimp only at h
    rw [AllocateIP_ok_iff hsteps] at hA
    rcases doAllocateIP_cases cfg env store (podName ++ "-" ++ sandboxID)
        (match podName.splitOn "/" with
          | [ns, name] => (ns, name)
          | _ => ("default", podName)).2
        (match podName.splitOn "/" with
          | [ns, name] => (ns, name)
          | _ => ("default", podName)).1 with
      ⟨a, ha, heq⟩ | ⟨ha, hAv, heq⟩ | ⟨ha, hAv, hn, heq⟩ | ⟨ha, hAv, ⟨nn, hn⟩, heq⟩
    · rw [ha] at hfresh
      exact absurd hfresh (by simp)
    · rw [heq] at hA
      exact absurd (congrArg Prod.snd hA) (by simp)
    · rw [heq] at hA
      exact absurd (congrArg Prod.snd hA) (by simp)
    · rw [heq] at hA
      dsimp only at hA
      have hi := selectIPIndex_lt env
        (A := (getCurrentState cfg env store).1.AvailableIPs)
        (podName ++ "-" ++ sandboxID) hAv
      have hv : env.validIP ((getCurrentState cfg env store).1.AvailableIPs.getD
          (selectIPIndex env (getCurrentState cfg env store).1.AvailableIPs
            (podName ++ "-" ++ sandboxID)) "") = true :=
        hval _ (getD_mem_of_lt hi)
      rw [if_pos hv] at hA
      have hstore1 : store1 = some
          { stateData := some (allocWrittenState cfg env store
              (podName ++ "-" ++ sandboxID)
              (match podName.splitOn "/" with
                | [ns, name] => (ns, name)
                | _ => ("default", podName)).2
              (match podName.splitOn "/" with
                | [ns, name] => (ns, name)
                | _ => ("default", podName)).1)
            resourceVersion := env.freshRev } :=
        (congrArg Prod.fst hA).symm
      have hrestore := rollback_restores cfg env steps store (podName ++ "-" ++ sandboxID)
        (match podName.splitOn "/" with
          | [ns, name] => (ns, name)
          | _ => ("default", podName)).2
        (match podName.splitOn "/" with
          | [ns, name] => (ns, name)
          | _ => ("default", podName)).1 hsteps hfresh hAv
      rcases generate with g0 | userData
      · dsimp only at h
        have hs2 : store2 = (DeallocateIP cfg env steps store1
            (podName ++ "-" ++ sandboxID)).1 := (congrArg Prod.fst h).symm
        rw [hs2, hstore1]
        exact hrestore
      · dsimp only at h
        by_cases hsend : send userData ip = true
        · rw [if_pos hsend] at h
          exact absurd (congrArg Prod.snd h) (by simp)
        · rw [if_neg hsend] at h
          have hs2 : store2 = (DeallocateIP cfg env steps store1
              (podName ++ "-" ++ sandboxID)).1 := (congrArg Prod.fst h).symm
          rw [hs2, hstore1]
          exact hrestore

/-- C8 amended witness: a fresh allocation rolled back after a failed
cloud-config generation leaves the concrete pool as observed. -/
theorem byom_c8_amended_witness :
    (getCurrentState cfgW envW
        (CreateInstance cfgW envW 1 (Except.error ()) (fun _ _ => true)
          storeW "podB" "s2").1).1.AllocatedIPs =
      (getCurrentState cfgW envW storeW).1.AllocatedIPs ∧
    (getCurrentState cfgW envW
        (CreateInstance cfgW envW 1 (Except.error ()) (fun _ _ => true)
          storeW "podB" "s2").1).1.AvailableIPs.Perm
      (getCurrentState cfgW envW storeW).1.AvailableIPs :=
  byom_c8_amended cfgW envW 1 (Except.error ()) (fun _ _ => true) storeW "podB" "s2"
    (by decide) (by decide) (by decide) (by decide)
    (CreateInstance cfgW envW 1 (Except.error ()) (fun _ _ => true) storeW "podB" "s2").1
    CreateInstanceErr.generateFailed (by decide)

end Byom
